import Mathlib

/-!
Verification of the notebook analysis engine, interface renderer and transport
adapter of the colab-gui-generator repository.

Strings are modelled as `List Char`.  Python string operations (`lower`,
`strip`, `title`, `replace`, slicing) and the regular-expression searches used
by the source are embedded as executable Lean functions over `List Char`.
The embedding is ASCII-faithful: Python's unicode-aware case folding and
whitespace classes are modelled by their ASCII fragments, which covers every
pattern and literal appearing in the source.
-/

set_option autoImplicit false

namespace CG

/-- ASCII whitespace, the fragment of Python's `\s` class relevant here:
space, tab, newline, carriage return, vertical tab, form feed. -/
def isWsCh (c : Char) : Bool :=
  c = ' ' || c = '\t' || c = '\n' || c = '\r' || c = '\x0b' || c = '\x0c'

/-- Decimal digit `0-9` (`\d`). -/
def isDigitCh (c : Char) : Bool :=
  48 ≤ c.toNat && c.toNat ≤ 57

/-- Character class `[a-z0-9_]` used by `_sanitize_name` and by the spec's
identifier requirement. -/
def isAllowedCh (c : Char) : Bool :=
  (97 ≤ c.toNat && c.toNat ≤ 122) || (48 ≤ c.toNat && c.toNat ≤ 57) || c.toNat = 95

/-- ASCII lower-casing of one character (`str.lower`). -/
def lcChar (c : Char) : Char :=
  if 65 ≤ c.toNat && c.toNat ≤ 90 then Char.ofNat (c.toNat + 32) else c

/-- ASCII upper-casing of one character (`str.upper`). -/
def ucChar (c : Char) : Char :=
  if 97 ≤ c.toNat && c.toNat ≤ 122 then Char.ofNat (c.toNat - 32) else c

/-- ASCII letter test (Python's cased-character test, ASCII fragment). -/
def isAsciiAlpha (c : Char) : Bool :=
  (65 ≤ c.toNat && c.toNat ≤ 90) || (97 ≤ c.toNat && c.toNat ≤ 122)

/-- Embeds `re.sub(r'[^a-z0-9_]', '_', ...)` applied to one character. -/
def subChar (c : Char) : Char :=
  if isAllowedCh c then c else '_'

/-- Python `str.lower` over a whole string. -/
def lcStr (s : List Char) : List Char :=
  s.map lcChar

/-- Boolean prefix test on character lists. -/
def isPrefixOfL : List Char → List Char → Bool
  | [], _ => true
  | _ :: _, [] => false
  | a :: as, b :: bs => (a = b) && isPrefixOfL as bs

/-- Boolean substring test: does `needle` occur inside `hay`? -/
def containsSub (needle : List Char) : List Char → Bool
  | [] => isPrefixOfL needle []
  | c :: rest => isPrefixOfL needle (c :: rest) || containsSub needle rest

/-- Embeds `re.search(pattern, code, re.IGNORECASE)` for a literal pattern:
case-insensitive substring test. -/
def ciContains (needle hay : List Char) : Bool :=
  containsSub (lcStr needle) (lcStr hay)

/-- Case-insensitive search for any of several literal alternatives
(`re.search(r'a|b|...', code, re.IGNORECASE)`). -/
def ciContainsAny (needles : List (List Char)) (hay : List Char) : Bool :=
  needles.any (fun n => ciContains n hay)

/-- Remove the trailing run of characters satisfying `p`
(the right half of Python's `strip`). -/
def trimRightP (p : Char → Bool) : List Char → List Char
  | [] => []
  | c :: rest =>
    match trimRightP p rest with
    | [] => if p c then [] else [c]
    | d :: r2 => c :: d :: r2

/-- Python `str.strip()` (whitespace strip on both sides). -/
def pyStripWs (s : List Char) : List Char :=
  trimRightP isWsCh (s.dropWhile isWsCh)

/-- Underscore test used by `_sanitize_name`'s final `strip('_')`. -/
def isUndCh (c : Char) : Bool := c = '_'

/-- Python `str.strip('_')`. -/
def pyStripUnd (s : List Char) : List Char :=
  trimRightP isUndCh (s.dropWhile isUndCh)

/-- Embeds `re.sub(r'_+', '_', name)`: collapse each run of underscores to a single
underscore.  The boolean argument records whether the previous kept character
position was inside an underscore run. -/
def collapseGo : Bool → List Char → List Char
  | _, [] => []
  | prevU, c :: rest =>
    if c = '_' then
      if prevU then collapseGo true rest
      else '_' :: collapseGo true rest
    else c :: collapseGo false rest

/-- Embeds `NotebookParser._sanitize_name`:
`name.lower()`, then `re.sub(r'[^a-z0-9_]', '_', name)`, then
`re.sub(r'_+', '_', name)`, then `name.strip('_')`. -/
def sanitizeName (s : List Char) : List Char :=
  pyStripUnd (collapseGo false ((s.map lcChar).map subChar))

/-- Split a string at newline characters (line structure used by the
`re.MULTILINE` patterns of `_extract_metadata`). -/
def splitLines : List Char → List (List Char)
  | [] => [[]]
  | c :: rest =>
    match splitLines rest with
    | [] => [[c]]
    | h :: t => if c = '\n' then [] :: h :: t else (c :: h) :: t

/-- Rebuild a string from its lines. -/
def joinLines (ls : List (List Char)) : List Char :=
  List.intercalate ['\n'] ls

/-- One line matched against `^#\s+(.+)$`, returning the captured group.
Backtracking semantics of Python's greedy `\s+` followed by `(.+)`:
the group is the remainder after the maximal whitespace run, except that when
the remainder is empty and the whitespace run has length at least two, `\s+`
gives one whitespace character back to `(.+)`. -/
def h1Group (line : List Char) : Option (List Char) :=
  match line with
  | '#' :: rest =>
    let ws := rest.takeWhile isWsCh
    let rem := rest.dropWhile isWsCh
    if ws = [] then none
    else if rem ≠ [] then some rem
    else if 2 ≤ ws.length then some [ws.getLastD ' ']
    else none
  | _ => none

/-- Embeds `re.search(r'^#\s+(.+)$', source, re.MULTILINE)`: the first matching line
in order, since `^` anchors every candidate at a line start. -/
def findH1 (source : List Char) : Option (List Char) :=
  (splitLines source).findSome? h1Group

/-- Embeds `re.sub(r'^#+.*$', '', source, flags=re.MULTILINE)`: blank out every line
that starts with `#` (the `\n` separators are kept). -/
def stripHeadingLines (source : List Char) : List Char :=
  joinLines ((splitLines source).map (fun line =>
    match line with
    | '#' :: _ => []
    | _ => line))

/-- Python `str.title()` (ASCII): a letter is upper-cased when the previous
character is not a letter, lower-cased otherwise. -/
def pyTitleGo : Bool → List Char → List Char
  | _, [] => []
  | prevAlpha, c :: rest =>
    if isAsciiAlpha c then
      (if prevAlpha then lcChar c else ucChar c) :: pyTitleGo true rest
    else c :: pyTitleGo false rest

/-- Python `str.title()`. -/
def pyTitle (s : List Char) : List Char :=
  pyTitleGo false s

/-- Python `str.replace(pat, rep)` for a non-empty `pat`, with explicit fuel
(every loop step consumes at least one character, so `s.length + 1` fuel is
exact). -/
def replaceSubAllGo (pat rep : List Char) : Nat → List Char → List Char
  | 0, s => s
  | _, [] => []
  | fuel + 1, c :: rest =>
    if isPrefixOfL pat (c :: rest) then
      rep ++ replaceSubAllGo pat rep fuel (List.drop pat.length (c :: rest))
    else c :: replaceSubAllGo pat rep fuel rest

/-- Python `str.replace(pat, rep)`. -/
def replaceSubAll (pat rep s : List Char) : List Char :=
  replaceSubAllGo pat rep (s.length + 1) s

/-- Fallback title of `_extract_metadata`:
`filename.replace('.ipynb', '').replace('_', ' ').replace('-', ' ').title()`. -/
def defaultTitle (filename : List Char) : List Char :=
  pyTitle (((replaceSubAll ".ipynb".toList [] filename).map
    (fun c => if c = '_' then ' ' else c)).map
    (fun c => if c = '-' then ' ' else c))

/-- The loop body of `_extract_metadata` over markdown-cell sources.
Per cell: an `^#\s+(.+)$` match replaces the running title; then, if the cell
has non-empty text once heading lines are removed, the description is set to
its first 500 characters and the loop breaks. -/
def extractMetaGo : List Char → List (List Char) → (List Char × List Char)
  | title, [] => (title, [])
  | title, src :: rest =>
    let t := match findH1 src with
      | some g => pyStripWs g
      | none => title
    let text := pyStripWs (stripHeadingLines src)
    if text ≠ [] then (t, text.take 500)
    else extractMetaGo t rest

/-- Embeds `NotebookParser._extract_metadata` on the markdown cell sources. -/
def extractMetadata (mdSources : List (List Char)) (filename : List Char) :
    List Char × List Char :=
  extractMetaGo (defaultTitle filename) mdSources

/-- Numeric value of a string of decimal digits (`int(...)` on a `\d+`
capture). -/
def natOfDigits (s : List Char) : Nat :=
  s.foldl (fun acc c => 10 * acc + (c.toNat - 48)) 0

/-- Python `float(...)` applied to a `[\d.]+` capture: defined exactly when
the text has at least one digit and at most one dot, with the exact decimal
value as a rational.  `none` models the uncaught `ValueError`. -/
def pyFloatOfMatch (s : List Char) : Option ℚ :=
  let a := s.takeWhile isDigitCh
  let r := s.dropWhile isDigitCh
  match r with
  | [] => if a = [] then none else some (natOfDigits a)
  | '.' :: b =>
    if b.all isDigitCh && !(a = [] && b = []) then
      some ((natOfDigits a : ℚ) + (natOfDigits b : ℚ) / ((10 : ℚ) ^ b.length))
    else none
  | _ => none

/-- Try `(?:alt1|alt2|...)\s*=\s*(\d+)` anchored at the start of `s`,
alternatives in pattern order, returning the integer capture. -/
def matchAssignAt (alts : List (List Char)) (s : List Char) : Option Nat :=
  alts.findSome? (fun alt =>
    if isPrefixOfL alt s then
      let r1 := (List.drop alt.length s).dropWhile isWsCh
      match r1 with
      | '=' :: r2 =>
        let r3 := r2.dropWhile isWsCh
        let digits := r3.takeWhile isDigitCh
        if digits = [] then none else some (natOfDigits digits)
      | _ => none
    else none)

/-- Embeds `re.search((?:alt1|alt2|...)\s*=\s*(\d+), code)`: leftmost match wins,
alternatives tried in order at each position. -/
def searchAssign (alts : List (List Char)) : List Char → Option Nat
  | [] => none
  | c :: rest =>
    match matchAssignAt alts (c :: rest) with
    | some n => some n
    | none => searchAssign alts rest

/-- Try `(?:alt1|...)\s*=\s*([\d.]+)` anchored at the start of `s`,
returning the matched `[\d.]+` text. -/
def matchAssignFloatAt (alts : List (List Char)) (s : List Char) : Option (List Char) :=
  alts.findSome? (fun alt =>
    if isPrefixOfL alt s then
      let r1 := (List.drop alt.length s).dropWhile isWsCh
      match r1 with
      | '=' :: r2 =>
        let r3 := r2.dropWhile isWsCh
        let txt := r3.takeWhile (fun c => isDigitCh c || c = '.')
        if txt = [] then none else some txt
      | _ => none
    else none)

/-- Embeds `re.search((?:alt1|...)\s*=\s*([\d.]+), code)`. -/
def searchAssignFloat (alts : List (List Char)) : List Char → Option (List Char)
  | [] => none
  | c :: rest =>
    match matchAssignFloatAt alts (c :: rest) with
    | some t => some t
    | none => searchAssignFloat alts rest

/-- Quote character class `["\']` of the constructor patterns. -/
def isQuoteCh (c : Char) : Bool :=
  c = '"' || c = '\x27'

/-- Try `key\s*=\s*["\']([^"\']+)["\']` anchored at the start of `s`:
returns the capture and the rest of the input after the closing quote. -/
def matchQuoteKeyTail (key : List Char) (s : List Char) : Option (List Char × List Char) :=
  if isPrefixOfL key s then
    match (List.drop key.length s).dropWhile isWsCh with
    | '=' :: r2 =>
      match r2.dropWhile isWsCh with
      | q :: r3 =>
        if isQuoteCh q then
          let content := r3.takeWhile (fun c => !isQuoteCh c)
          match r3.dropWhile (fun c => !isQuoteCh c) with
          | _ :: r5 => if content = [] then none else some (content, r5)
          | [] => none
        else none
      | [] => none
    | _ => none
  else none

/-- Try `key\s*=\s*(\d+)` anchored at the start of `s`, returning the numeric
capture (as `float(...)` does, a rational) and the rest after the digits. -/
def matchNumKeyTail (key : List Char) (s : List Char) : Option (ℚ × List Char) :=
  if isPrefixOfL key s then
    match (List.drop key.length s).dropWhile isWsCh with
    | '=' :: r2 =>
      let r3 := r2.dropWhile isWsCh
      let digits := r3.takeWhile isDigitCh
      if digits = [] then none
      else some ((natOfDigits digits : ℚ), r3.dropWhile isDigitCh)
    | _ => none
  else none

/-- Greedy `[^)]*` stage: try the continuation `tm` at every split point of
the non-`)` run of `s`, rightmost (longest `[^)]*`) first — the backtracking
order of Python's greedy star. -/
def greedyGo {α : Type} (tm : List Char → Option α) (s : List Char) : Nat → Option α
  | 0 => tm s
  | j + 1 =>
    match tm (List.drop (j + 1) s) with
    | some r => some r
    | none => greedyGo tm s j

/-- Greedy star `[^)]*` followed by the continuation `tm`. -/
def greedyStage {α : Type} (tm : List Char → Option α) (s : List Char) : Option α :=
  greedyGo tm s (s.takeWhile (fun c => !(c = ')'))).length

/-- Try one constructor keyword alternative followed by
`\s*\([^)]*key\s*=\s*["\']([^"\']+)["\']`. -/
def matchKwQuoteAt (kwAlts : List (List Char)) (key : List Char) (s : List Char) :
    Option (List Char × List Char) :=
  kwAlts.findSome? (fun kw =>
    if isPrefixOfL kw s then
      match (List.drop kw.length s).dropWhile isWsCh with
      | '(' :: r3 => greedyStage (matchQuoteKeyTail key) r3
      | _ => none
    else none)

/-- Embeds `re.finditer` for the single-capture constructor patterns
(`gradio_textbox`, `gradio_image`, `gradio_number`, `gradio_checkbox`,
`gradio_file`, `widget_text`): left-to-right, non-overlapping.  Fuel bounds
the loop; every iteration consumes at least one character, so
`s.length + 1` fuel is exact. -/
def finditerKwQuote (kwAlts : List (List Char)) (key : List Char) :
    Nat → List Char → List (List Char)
  | 0, _ => []
  | fuel + 1, s =>
    match matchKwQuoteAt kwAlts key s with
    | some (cap, after) => cap :: finditerKwQuote kwAlts key fuel after
    | none =>
      match s with
      | [] => []
      | _ :: rest => finditerKwQuote kwAlts key fuel rest

/-- Try one constructor keyword alternative followed by
`\s*\([^)]*k1\s*=\s*(\d+)[^)]*k2\s*=\s*(\d+)[^)]*k3\s*=\s*["\']([^"\']+)["\']`
(the `gradio_slider` / `widget_slider` shape), with full backtracking across
the three greedy `[^)]*` stages. -/
def matchSliderAt (kwAlts : List (List Char)) (k1 k2 k3 : List Char) (s : List Char) :
    Option ((ℚ × ℚ × List Char) × List Char) :=
  kwAlts.findSome? (fun kw =>
    if isPrefixOfL kw s then
      match (List.drop kw.length s).dropWhile isWsCh with
      | '(' :: r3 =>
        greedyStage (fun t1 => do
          let (d1, ra) ← matchNumKeyTail k1 t1
          greedyStage (fun t2 => do
            let (d2, rb) ← matchNumKeyTail k2 t2
            greedyStage (fun t3 => do
              let (lab, rc) ← matchQuoteKeyTail k3 t3
              pure ((d1, d2, lab), rc)) rb) ra) r3
      | _ => none
    else none)

/-- Embeds `re.finditer` for the slider patterns. -/
def finditerSlider (kwAlts : List (List Char)) (k1 k2 k3 : List Char) :
    Nat → List Char → List (ℚ × ℚ × List Char)
  | 0, _ => []
  | fuel + 1, s =>
    match matchSliderAt kwAlts k1 k2 k3 s with
    | some (cap, after) => cap :: finditerSlider kwAlts k1 k2 k3 fuel after
    | none =>
      match s with
      | [] => []
      | _ :: rest => finditerSlider kwAlts k1 k2 k3 fuel rest

/-- The `ParameterType` enumeration of `notebook_parser.py`. -/
inductive ParameterType where
  | TEXT | TEXTAREA | NUMBER | SLIDER | CHECKBOX | DROPDOWN | FILE | IMAGE | COLOR
deriving DecidableEq, Repr

/-- The `OutputType` enumeration of `notebook_parser.py`. -/
inductive OutputType where
  | IMAGE | TEXT | FILE | AUDIO | VIDEO
deriving DecidableEq, Repr

/-- Python value stored in `Parameter.default_value` (`Any`, default `None`).
Exact decimal literals are modelled as rationals. -/
inductive PValue where
  | none
  | str (s : List Char)
  | int (n : Int)
  | float (q : ℚ)
deriving DecidableEq, Repr

/-- The `Parameter` dataclass.  `options` is unused by the engine (no
detector ever fills it) but kept for shape fidelity. -/
structure Parameter where
  name : List Char
  param_type : ParameterType
  label : List Char
  default_value : PValue := PValue.none
  min_value : Option ℚ := Option.none
  max_value : Option ℚ := Option.none
  step : Option ℚ := Option.none
  options : List (List Char) := []
  description : List Char := []
  required : Bool := true
deriving DecidableEq, Repr

/-- The `Output` dataclass. -/
structure Output where
  name : List Char
  output_type : OutputType
  description : List Char := []
deriving DecidableEq, Repr

/-- The claim-relevant fields of the `NotebookAnalysis` dataclass.
`required_packages` (an unordered Python `set` rendered as a list),
`raw_cells` (the verbatim input) and `api_code` (the generated stub text)
are not referenced by any claim and are omitted. -/
structure NotebookAnalysis where
  title : List Char
  description : List Char
  parameters : List Parameter
  outputs : List Output
  has_gradio : Bool
  has_flask : Bool
  has_fastapi : Bool
  model_type : List Char
deriving DecidableEq, Repr

/-- The `prompt` standard parameter (`_detect_standard_image_params`). -/
def promptParam : Parameter :=
  { name := "prompt".toList, param_type := ParameterType.TEXTAREA,
    label := "Prompt".toList, default_value := PValue.str [],
    description := "Beschreibung des gewünschten Bildes".toList }

/-- The `negative_prompt` standard parameter. -/
def negPromptParam : Parameter :=
  { name := "negative_prompt".toList, param_type := ParameterType.TEXTAREA,
    label := "Negative Prompt".toList, default_value := PValue.str [],
    description := "Was NICHT im Bild erscheinen soll".toList,
    required := false }

/-- The `width` standard parameter with a given default. -/
def widthParamV (v : PValue) : Parameter :=
  { name := "width".toList, param_type := ParameterType.SLIDER,
    label := "Breite".toList, default_value := v,
    min_value := some 256, max_value := some 1024, step := some 64,
    description := "Bildbreite in Pixeln".toList }

/-- The `height` standard parameter with a given default. -/
def heightParamV (v : PValue) : Parameter :=
  { name := "height".toList, param_type := ParameterType.SLIDER,
    label := "Höhe".toList, default_value := v,
    min_value := some 256, max_value := some 1024, step := some 64,
    description := "Bildhöhe in Pixeln".toList }

/-- The `steps` standard parameter with a given default. -/
def stepsParamV (v : PValue) : Parameter :=
  { name := "steps".toList, param_type := ParameterType.SLIDER,
    label := "Schritte".toList, default_value := v,
    min_value := some 10, max_value := some 150, step := some 1,
    description := "Anzahl der Inferenz-Schritte".toList }

/-- The `cfg_scale` standard parameter with a given default. -/
def cfgParamV (v : PValue) : Parameter :=
  { name := "cfg_scale".toList, param_type := ParameterType.SLIDER,
    label := "CFG Scale".toList, default_value := v,
    min_value := some 1, max_value := some 20, step := some (1 / 2),
    description := "Wie stark der Prompt befolgt wird".toList }

/-- The `seed` standard parameter. -/
def seedParam : Parameter :=
  { name := "seed".toList, param_type := ParameterType.NUMBER,
    label := "Seed".toList, default_value := PValue.int (-1),
    description := "Zufallszahl für Reproduzierbarkeit (-1 = zufällig)".toList }

/-- The `strength` standard parameter with a given default. -/
def strengthParamV (v : PValue) : Parameter :=
  { name := "strength".toList, param_type := ParameterType.SLIDER,
    label := "Stärke".toList, default_value := v,
    min_value := some 0, max_value := some 1, step := some (1 / 20),
    description := "Stärke der Bildbearbeitung".toList }

/-- The `input_image` standard parameter. -/
def inputImageParam : Parameter :=
  { name := "input_image".toList, param_type := ParameterType.IMAGE,
    label := "Eingabebild".toList,
    description := "Bild für img2img Bearbeitung".toList,
    required := false }

/-- Prompt branch of `_detect_standard_image_params`. -/
def promptPart (code : List Char) : List Parameter :=
  if ciContains "prompt".toList code then [promptParam] else []

/-- Negative-prompt branch. -/
def negPart (code : List Char) : List Parameter :=
  if ciContains "negative_prompt".toList code then [negPromptParam] else []

/-- Width branch: `(?:width|w)\s*=\s*(\d+)` (case-sensitive) seeds the
default, otherwise the case-insensitive keyword `width` yields 512. -/
def widthPart (code : List Char) : List Parameter :=
  match searchAssign ["width".toList, "w".toList] code with
  | some n => [widthParamV (PValue.int n)]
  | Option.none =>
    if ciContains "width".toList code then [widthParamV (PValue.int 512)] else []

/-- Height branch. -/
def heightPart (code : List Char) : List Parameter :=
  match searchAssign ["height".toList, "h".toList] code with
  | some n => [heightParamV (PValue.int n)]
  | Option.none =>
    if ciContains "height".toList code then [heightParamV (PValue.int 512)] else []

/-- Steps branch: assignment pattern
`(?:steps|num_inference_steps|inference_steps)\s*=\s*(\d+)`, keyword
`steps|inference`. -/
def stepsPart (code : List Char) : List Parameter :=
  match searchAssign ["steps".toList, "num_inference_steps".toList,
      "inference_steps".toList] code with
  | some n => [stepsParamV (PValue.int n)]
  | Option.none =>
    if ciContainsAny ["steps".toList, "inference".toList] code
    then [stepsParamV (PValue.int 50)] else []

/-- CFG branch: assignment pattern `(?:cfg_scale|guidance_scale|cfg)\s*=\s*([\d.]+)`,
keyword `cfg|guidance`; `float(...)` on the capture may raise (`Option.none`). -/
def cfgPartOpt (code : List Char) : Option (List Parameter) :=
  match searchAssignFloat ["cfg_scale".toList, "guidance_scale".toList,
      "cfg".toList] code with
  | some txt => (pyFloatOfMatch txt).map (fun q => [cfgParamV (PValue.float q)])
  | Option.none =>
    if ciContainsAny ["cfg".toList, "guidance".toList] code
    then some [cfgParamV (PValue.float (15 / 2))] else some []

/-- Seed branch (keyword only, fixed default -1). -/
def seedPart (code : List Char) : List Parameter :=
  if ciContains "seed".toList code then [seedParam] else []

/-- Strength branch: assignment pattern `strength\s*=\s*([\d.]+)`, keyword
`img2img|strength`. -/
def strengthPartOpt (code : List Char) : Option (List Parameter) :=
  match searchAssignFloat ["strength".toList] code with
  | some txt => (pyFloatOfMatch txt).map (fun q => [strengthParamV (PValue.float q)])
  | Option.none =>
    if ciContainsAny ["img2img".toList, "strength".toList] code
    then some [strengthParamV (PValue.float (3 / 4))] else some []

/-- Input-image branch (keyword `img2img|init_image|input_image`). -/
def inputImagePart (code : List Char) : List Parameter :=
  if ciContainsAny ["img2img".toList, "init_image".toList, "input_image".toList] code
  then [inputImageParam] else []

/-- Embeds `NotebookParser._detect_standard_image_params`.  `Option.none` models the
uncaught `ValueError` from `float(...)` on a malformed `[\d.]+` capture. -/
def detectStandardImageParams (code : List Char) : Option (List Parameter) :=
  match cfgPartOpt code, strengthPartOpt code with
  | some cfgP, some strP =>
    some (promptPart code ++ negPart code ++ widthPart code ++ heightPart code
      ++ stepsPart code ++ cfgP ++ seedPart code ++ strP ++ inputImagePart code)
  | _, _ => Option.none

/-- Parameter built from a `gradio_textbox` match. -/
def grTextParam (lab : List Char) : Parameter :=
  { name := sanitizeName lab, param_type := ParameterType.TEXT, label := lab }

/-- Parameter built from a `gradio_slider` / `widget_slider` match. -/
def grSliderParam (mn mx : ℚ) (lab : List Char) : Parameter :=
  { name := sanitizeName lab, param_type := ParameterType.SLIDER, label := lab,
    min_value := some mn, max_value := some mx }

/-- Parameter built from a `gradio_image` match. -/
def grImageParam (lab : List Char) : Parameter :=
  { name := sanitizeName lab, param_type := ParameterType.IMAGE, label := lab }

/-- Embeds `NotebookParser._detect_gradio_params`: only the textbox, slider and
image patterns are applied (the checkbox, dropdown, number and file patterns
of the pattern table are never used by this method). -/
def detectGradioParams (code : List Char) : List Parameter :=
  let fuel := code.length + 1
  ((finditerKwQuote ["gr.Textbox".toList] "label".toList fuel code).map grTextParam)
  ++ ((finditerSlider ["gr.Slider".toList] "minimum".toList "maximum".toList
      "label".toList fuel code).map (fun t => grSliderParam t.1 t.2.1 t.2.2))
  ++ ((finditerKwQuote ["gr.Image".toList] "label".toList fuel code).map grImageParam)

/-- Embeds `NotebookParser._detect_widget_params`: text and slider widgets only
(the dropdown pattern of the table is never used by this method). -/
def detectWidgetParams (code : List Char) : List Parameter :=
  let fuel := code.length + 1
  ((finditerKwQuote ["widgets.Text".toList] "description".toList fuel code).map grTextParam)
  ++ ((finditerSlider ["widgets.IntSlider".toList, "widgets.FloatSlider".toList]
      "min".toList "max".toList "description".toList fuel code).map
      (fun t => grSliderParam t.1 t.2.1 t.2.2))

/-- Embeds `NotebookParser._get_default_image_params`: the fallback set. -/
def defaultImageParams : List Parameter :=
  [ promptParam,
    negPromptParam,
    { name := "width".toList, param_type := ParameterType.SLIDER,
      label := "Breite".toList, default_value := PValue.int 512,
      min_value := some 256, max_value := some 1024, step := some 64 },
    { name := "height".toList, param_type := ParameterType.SLIDER,
      label := "Höhe".toList, default_value := PValue.int 512,
      min_value := some 256, max_value := some 1024, step := some 64 },
    { name := "steps".toList, param_type := ParameterType.SLIDER,
      label := "Schritte".toList, default_value := PValue.int 50,
      min_value := some 10, max_value := some 150, step := some 1 } ]

/-- The de-duplication loop of `_detect_parameters`: a parameter whose name
is already in the seen set is discarded (first detection wins). -/
def dedupGo : List (List Char) → List Parameter → List Parameter
  | _, [] => []
  | seen, p :: rest =>
    if p.name ∈ seen then dedupGo seen rest
    else p :: dedupGo (p.name :: seen) rest

/-- Embeds `NotebookParser._detect_parameters`: standard checklist, then gradio
matches, then widget matches, de-duplicated first-wins; the fixed fallback
set if nothing was found. -/
def detectParameters (code : List Char) : Option (List Parameter) :=
  match detectStandardImageParams code with
  | Option.none => Option.none
  | some std =>
    let ps := dedupGo [] (std ++ detectGradioParams code ++ detectWidgetParams code)
    some (if ps = [] then defaultImageParams else ps)

/-- Default image output (`generated_image`). -/
def imageOutput : Output :=
  { name := "generated_image".toList, output_type := OutputType.IMAGE,
    description := "Generiertes Bild".toList }

/-- Audio output. -/
def audioOutput : Output :=
  { name := "generated_audio".toList, output_type := OutputType.AUDIO,
    description := "Generiertes Audio".toList }

/-- Video output. -/
def videoOutput : Output :=
  { name := "generated_video".toList, output_type := OutputType.VIDEO,
    description := "Generiertes Video".toList }

/-- Embeds `NotebookParser._detect_outputs`. -/
def detectOutputs (code : List Char) : List Output :=
  let outs :=
    (if ciContainsAny [".save(".toList, "Image.".toList, "PIL".toList,
        "cv2".toList, "plt.show".toList, "display(".toList] code
     then [imageOutput] else [])
    ++ (if ciContainsAny ["audio".toList, "wav".toList, "mp3".toList,
        "tts".toList, "speech".toList] code
     then [audioOutput] else [])
    ++ (if ciContainsAny ["video".toList, "mp4".toList, "avi".toList,
        "animate".toList] code
     then [videoOutput] else [])
  if outs = [] then [imageOutput] else outs

/-- Embeds `NotebookParser._detect_model_type`: fixed-priority keyword ladder. -/
def detectModelType (code : List Char) : List Char :=
  if ciContains "flux".toList code then "flux".toList
  else if ciContainsAny ["sdxl".toList, "stable-diffusion-xl".toList] code then
    "sdxl".toList
  else if ciContains "controlnet".toList code then "controlnet".toList
  else if ciContainsAny ["stablediffusion".toList, "stable-diffusion".toList,
      "runwayml".toList, "compvis".toList] code then "stable_diffusion".toList
  else if ciContains "diffusers".toList code then "diffusers".toList
  else if ciContains "transformers".toList code then "transformers".toList
  else "unknown".toList

/-- The `source` entry of a notebook cell: absent, a single string, or a
list of line strings (joined with `''.join` before use). -/
inductive SourceVal where
  | absent
  | str (s : List Char)
  | list (ls : List (List Char))
deriving DecidableEq, Repr

/-- Embeds `''.join(c.get('source', [])) if isinstance(c.get('source'), list) else
c.get('source', '')`. -/
def cellSourceText : SourceVal → List Char
  | SourceVal.absent => []
  | SourceVal.str s => s
  | SourceVal.list ls => ls.flatten

/-- One notebook cell: `cell_type` may be absent. -/
structure NbCell where
  cell_type : Option (List Char)
  source : SourceVal
deriving DecidableEq, Repr

/-- A notebook structure: the `cells` key may be absent
(`notebook.get('cells', [])`). -/
structure Notebook where
  cells : Option (List NbCell)
deriving DecidableEq, Repr

/-- Code cells: `c.get('cell_type') == 'code'`. -/
def codeCellsOf (nb : Notebook) : List NbCell :=
  (nb.cells.getD []).filter (fun c => c.cell_type = some "code".toList)

/-- Markdown cells: `c.get('cell_type') == 'markdown'`. -/
def mdCellsOf (nb : Notebook) : List NbCell :=
  (nb.cells.getD []).filter (fun c => c.cell_type = some "markdown".toList)

/-- Embeds `'\n'.join(...)` over the code cell sources. -/
def allCodeOf (nb : Notebook) : List Char :=
  List.intercalate ['\n'] ((codeCellsOf nb).map (fun c => cellSourceText c.source))

/-- Markdown sources in order. -/
def mdSourcesOf (nb : Notebook) : List (List Char) :=
  (mdCellsOf nb).map (fun c => cellSourceText c.source)

/-- Embeds `NotebookParser._analyze_notebook`.  `Option.none` models an uncaught
exception escaping the analysis (only possible via `float(...)` in the
standard-parameter detector). -/
def analyzeNotebook (nb : Notebook) (filename : List Char) : Option NotebookAnalysis :=
  match detectParameters (allCodeOf nb) with
  | Option.none => Option.none
  | some ps =>
    some
      { title := (extractMetadata (mdSourcesOf nb) filename).1,
        description := (extractMetadata (mdSourcesOf nb) filename).2,
        parameters := ps,
        outputs := detectOutputs (allCodeOf nb),
        has_gradio := ciContains "gradio".toList (allCodeOf nb)
          || containsSub "import gr".toList (allCodeOf nb),
        has_flask := ciContains "flask".toList (allCodeOf nb),
        has_fastapi := ciContains "fastapi".toList (allCodeOf nb),
        model_type := detectModelType (allCodeOf nb) }

/-- Embeds `NotebookParser.parse_json`. -/
def parseJson (nb : Notebook) (filename : List Char) : Option NotebookAnalysis :=
  analyzeNotebook nb filename

/-- Adjacent-pair predicate: no two consecutive underscores. -/
def okPair (a b : Char) : Prop := a ≠ '_' ∨ b ≠ '_'

/-- Head predicate: the list does not start with an underscore. -/
def headNotU (l : List Char) : Prop := ∀ d, l.head? = some d → d ≠ '_'

lemma isAllowed_subChar (c : Char) : isAllowedCh (subChar c) = true := by
  unfold subChar
  split
  · assumption
  · decide

lemma lcChar_of_allowed {c : Char} (h : isAllowedCh c = true) : lcChar c = c := by
  have h2 : ¬ ((65 ≤ c.toNat && c.toNat ≤ 90) = true) := by
    simp only [isAllowedCh, Bool.or_eq_true, Bool.and_eq_true, decide_eq_true_eq] at h
    simp only [Bool.and_eq_true, decide_eq_true_eq, not_and]
    omega
  unfold lcChar
  rw [if_neg h2]

lemma subChar_of_allowed {c : Char} (h : isAllowedCh c = true) : subChar c = c := by
  unfold subChar
  simp [h]

lemma collapseGo_nil (b : Bool) : collapseGo b [] = [] := rfl

lemma collapseGo_und_true (rest : List Char) :
    collapseGo true ('_' :: rest) = collapseGo true rest := rfl

lemma collapseGo_und_false (rest : List Char) :
    collapseGo false ('_' :: rest) = '_' :: collapseGo true rest := rfl

lemma collapseGo_other (b : Bool) {c : Char} (h : ¬ c = '_') (rest : List Char) :
    collapseGo b (c :: rest) = c :: collapseGo false rest := by
  show (if c = '_' then
      if b = true then collapseGo true rest else '_' :: collapseGo true rest
    else c :: collapseGo false rest) = c :: collapseGo false rest
  rw [if_neg h]

lemma trimRightP_cons (p : Char → Bool) (a : Char) (rest : List Char) :
    trimRightP p (a :: rest) =
      match trimRightP p rest with
      | [] => if p a then [] else [a]
      | d :: r2 => a :: d :: r2 := rfl

lemma mem_collapseGo {c : Char} : ∀ (b : Bool) (l : List Char), c ∈ collapseGo b l → c ∈ l
  | _, [], h => by simp [collapseGo_nil] at h
  | b, a :: rest, h => by
    by_cases ha : a = '_'
    · subst ha
      cases b with
      | true =>
        rw [collapseGo_und_true] at h
        exact List.mem_cons_of_mem _ (mem_collapseGo true rest h)
      | false =>
        rw [collapseGo_und_false] at h
        rcases List.mem_cons.mp h with h1 | h2
        · simp [h1]
        · exact List.mem_cons_of_mem _ (mem_collapseGo true rest h2)
    · rw [collapseGo_other b ha] at h
      rcases List.mem_cons.mp h with h1 | h2
      · simp [h1]
      · exact List.mem_cons_of_mem _ (mem_collapseGo false rest h2)

lemma mem_trimRightP (p : Char → Bool) {c : Char} :
    ∀ (l : List Char), c ∈ trimRightP p l → c ∈ l
  | [], h => by simp [trimRightP] at h
  | a :: rest, h => by
    rw [trimRightP_cons] at h
    rcases htr : trimRightP p rest with _ | ⟨d, r2⟩ <;> rw [htr] at h
    · by_cases hpa : p a = true
      · simp [hpa] at h
      · simp [hpa] at h
        simp [h]
    · rcases List.mem_cons.mp h with h1 | h2
      · simp [h1]
      · refine List.mem_cons_of_mem _ (mem_trimRightP p rest ?_)
        rw [htr]
        exact h2

lemma collapseGo_chain :
    ∀ (l : List Char) (b : Bool),
      (collapseGo b l).Chain' okPair ∧ (b = true → headNotU (collapseGo b l))
  | [], b => by
    constructor
    · simp [collapseGo_nil]
    · intro _ d hd
      simp [collapseGo_nil] at hd
  | a :: rest, b => by
    by_cases ha : a = '_'
    · subst ha
      cases b with
      | true =>
        rw [collapseGo_und_true]
        exact collapseGo_chain rest true
      | false =>
        have ih := collapseGo_chain rest true
        rw [collapseGo_und_false]
        constructor
        · rw [List.chain'_cons']
          refine ⟨?_, ih.1⟩
          intro y hy
          right
          exact ih.2 rfl y hy
        · intro hfalse
          cases hfalse
    · have ih := collapseGo_chain rest false
      rw [collapseGo_other b ha]
      constructor
      · rw [List.chain'_cons']
        exact ⟨fun y _ => Or.inl ha, ih.1⟩
      · intro _ d hd
        simp only [List.head?_cons, Option.some.injEq] at hd
        exact hd ▸ ha

lemma collapseGo_id_of_chain :
    ∀ (l : List Char), l.Chain' okPair →
      collapseGo false l = l ∧ (headNotU l → collapseGo true l = l)
  | [], _ => by constructor <;> simp [collapseGo_nil]
  | a :: rest, h => by
    have htl : rest.Chain' okPair := (List.chain'_cons'.mp h).2
    have hhead : ∀ y ∈ rest.head?, okPair a y := (List.chain'_cons'.mp h).1
    have ih := collapseGo_id_of_chain rest htl
    by_cases ha : a = '_'
    · subst ha
      have hrest : headNotU rest := by
        intro d hd
        rcases hhead d hd with h1 | h2
        · exact absurd rfl h1
        · exact h2
      constructor
      · rw [collapseGo_und_false, ih.2 hrest]
      · intro hh
        exact absurd rfl (hh '_' (by simp))
    · constructor
      · rw [collapseGo_other false ha, ih.1]
      · intro _
        rw [collapseGo_other true ha, ih.1]

lemma trimRightP_nil (p : Char → Bool) : trimRightP p [] = [] := rfl

lemma trimRightP_prefix_self (p : Char → Bool) : ∀ (l : List Char), trimRightP p l <+: l
  | [] => List.prefix_refl []
  | a :: rest => by
    rw [trimRightP_cons]
    rcases htr : trimRightP p rest with _ | ⟨d, r2⟩
    · simp only [htr]
      by_cases hpa : p a = true
      · rw [if_pos hpa]
        exact List.nil_prefix
      · rw [if_neg hpa]
        exact ⟨rest, rfl⟩
    · simp only [htr]
      have hpre : trimRightP p rest <+: rest := trimRightP_prefix_self p rest
      rw [htr] at hpre
      exact (List.prefix_cons_inj a).mpr hpre

lemma trimRightP_idem (p : Char → Bool) :
    ∀ (l : List Char), trimRightP p (trimRightP p l) = trimRightP p l
  | [] => rfl
  | a :: rest => by
    rcases htr : trimRightP p rest with _ | ⟨d, r2⟩
    · have hin : trimRightP p (a :: rest) = if p a then [] else [a] := by
        rw [trimRightP_cons]
        simp only [htr]
      rw [hin]
      by_cases hpa : p a = true
      · simp [hpa, trimRightP_nil]
      · simp [hpa, trimRightP_cons, trimRightP_nil]
    · have hin : trimRightP p (a :: rest) = a :: d :: r2 := by
        rw [trimRightP_cons]
        simp only [htr]
      rw [hin]
      have hidem := trimRightP_idem p rest
      rw [htr] at hidem
      rw [trimRightP_cons, hidem]

lemma trimRightP_head (p : Char → Bool) :
    ∀ (l : List Char) (d : Char), (trimRightP p l).head? = some d → l.head? = some d
  | [], d, h => by simp [trimRightP] at h
  | a :: rest, d, h => by
    rw [trimRightP_cons] at h
    rcases htr : trimRightP p rest with _ | ⟨e, r2⟩ <;> simp only [htr] at h
    · by_cases hpa : p a = true
      · rw [if_pos hpa] at h
        simp at h
      · rw [if_neg hpa] at h
        simpa using h
    · simpa using h

lemma head?_dropWhile (p : Char → Bool) :
    ∀ (l : List Char) (d : Char), (l.dropWhile p).head? = some d → p d = false
  | [], d, h => by simp at h
  | a :: rest, d, h => by
    by_cases hpa : p a = true
    · rw [List.dropWhile_cons_of_pos hpa] at h
      exact head?_dropWhile p rest d h
    · rw [List.dropWhile_cons_of_neg hpa] at h
      simp only [List.head?_cons, Option.some.injEq] at h
      subst h
      exact Bool.not_eq_true _ |>.mp hpa

lemma dropWhile_eq_self_of_head (p : Char → Bool) (l : List Char)
    (h : ∀ d, l.head? = some d → p d = false) : l.dropWhile p = l := by
  cases l with
  | nil => rfl
  | cons a rest =>
    have := h a (by simp)
    rw [List.dropWhile_cons_of_neg (by simp [this])]

/-- Every character of a sanitized name lies in `[a-z0-9_]`. -/
lemma sanitizeName_allowed (s : List Char) :
    ∀ c ∈ sanitizeName s, isAllowedCh c = true := by
  intro c hc
  unfold sanitizeName pyStripUnd at hc
  have h1 := mem_trimRightP isUndCh _ hc
  have h2 : c ∈ collapseGo false ((s.map lcChar).map subChar) :=
    (List.dropWhile_suffix isUndCh).mem h1
  have h3 := mem_collapseGo false _ h2
  rcases List.mem_map.mp h3 with ⟨d, _, rfl⟩
  exact isAllowed_subChar d

/-- A sanitized name contains no two adjacent underscores. -/
lemma sanitizeName_chain (s : List Char) : (sanitizeName s).Chain' okPair := by
  unfold sanitizeName pyStripUnd
  have h1 := (collapseGo_chain ((s.map lcChar).map subChar) false).1
  have h2 := h1.suffix (List.dropWhile_suffix isUndCh)
  exact h2.prefix (trimRightP_prefix_self isUndCh _)

/-- A sanitized name does not start with an underscore. -/
lemma sanitizeName_headNotU (s : List Char) : headNotU (sanitizeName s) := by
  intro d hd
  unfold sanitizeName pyStripUnd at hd
  have h1 := trimRightP_head isUndCh _ d hd
  have h2 := head?_dropWhile isUndCh _ d h1
  simpa [isUndCh] using h2

/-- Stripping underscores is idempotent on a sanitized name. -/
lemma sanitizeName_strip_fixed (s : List Char) :
    pyStripUnd (sanitizeName s) = sanitizeName s := by
  unfold pyStripUnd
  rw [dropWhile_eq_self_of_head]
  · conv_lhs => rw [sanitizeName, pyStripUnd]
    rw [trimRightP_idem]
    rw [sanitizeName, pyStripUnd]
  · intro d hd
    have := sanitizeName_headNotU s d hd
    simp [isUndCh, this]

lemma mem_dedupGo {p : Parameter} :
    ∀ (seen : List (List Char)) (L : List Parameter), p ∈ dedupGo seen L → p ∈ L
  | _, [], h => by simp [dedupGo] at h
  | seen, q :: rest, h => by
    rw [dedupGo] at h
    split at h
    · exact List.mem_cons_of_mem _ (mem_dedupGo seen rest h)
    · rcases List.mem_cons.mp h with h1 | h2
      · simp [h1]
      · exact List.mem_cons_of_mem _ (mem_dedupGo _ rest h2)

lemma dedupGo_nodup :
    ∀ (L : List Parameter) (seen : List (List Char)),
      ((dedupGo seen L).map (fun p => p.name)).Nodup ∧
        ∀ p ∈ dedupGo seen L, p.name ∉ seen
  | [], seen => by simp [dedupGo]
  | q :: rest, seen => by
    rw [dedupGo]
    split
    · exact dedupGo_nodup rest seen
    · next hq =>
      have ih := dedupGo_nodup rest (q.name :: seen)
      constructor
      · simp only [List.map_cons, List.nodup_cons]
        constructor
        · intro hmem
          rcases List.mem_map.mp hmem with ⟨r, hr, hrn⟩
          exact (ih.2 r hr) (by simp [hrn])
        · exact ih.1
      · intro p hp
        rcases List.mem_cons.mp hp with h1 | h2
        · subst h1
          exact hq
        · intro hmem
          exact (ih.2 p h2) (List.mem_cons_of_mem _ hmem)

lemma dedupGo_find_first {p : Parameter} :
    ∀ (L : List Parameter) (seen : List (List Char)), p ∈ dedupGo seen L →
      L.find? (fun q => q.name == p.name) = some p
  | [], _, h => by simp [dedupGo] at h
  | q :: rest, seen, h => by
    rw [dedupGo] at h
    split at h
    · next hq =>
      have hpn : p.name ∉ seen := (dedupGo_nodup rest seen).2 p h
      have hne : ¬ (q.name == p.name) = true := by
        simp only [beq_iff_eq]
        intro he
        exact hpn (he ▸ hq)
      have hstep : List.find? (fun r => r.name == p.name) (q :: rest) =
          List.find? (fun r => r.name == p.name) rest :=
        List.find?_cons_of_neg rest hne
      rw [hstep]
      exact dedupGo_find_first rest seen h
    · rcases List.mem_cons.mp h with h1 | h2
      · subst h1
        exact List.find?_cons_of_pos rest (by simp)
      · have hpn : p.name ∉ q.name :: seen := (dedupGo_nodup rest _).2 p h2
        have hne : ¬ (q.name == p.name) = true := by
          simp only [beq_iff_eq]
          intro he
          exact hpn (by simp [he])
        have hstep : List.find? (fun r => r.name == p.name) (q :: rest) =
            List.find? (fun r => r.name == p.name) rest :=
          List.find?_cons_of_neg rest hne
        rw [hstep]
        exact dedupGo_find_first rest _ h2

lemma dedupGo_keeps_first {p : Parameter} :
    ∀ (L : List Parameter) (seen : List (List Char)),
      L.find? (fun q => q.name == p.name) = some p → p.name ∉ seen →
        p ∈ dedupGo seen L
  | [], _, h, _ => by simp at h
  | q :: rest, seen, h, hns => by
    by_cases hq : (q.name == p.name) = true
    · have hstep : List.find? (fun r => r.name == p.name) (q :: rest) = some q :=
        List.find?_cons_of_pos rest hq
      rw [hstep] at h
      injection h with h
      subst h
      rw [dedupGo, if_neg hns]
      exact List.mem_cons_self _ _
    · have hstep : List.find? (fun r => r.name == p.name) (q :: rest) =
          List.find? (fun r => r.name == p.name) rest :=
        List.find?_cons_of_neg rest hq
      rw [hstep] at h
      simp only [beq_iff_eq] at hq
      rw [dedupGo]
      split
      · exact dedupGo_keeps_first rest seen h hns
      · refine List.mem_cons_of_mem _ (dedupGo_keeps_first rest _ h ?_)
        intro hmem
        rcases List.mem_cons.mp hmem with h1 | h2
        · exact hq h1.symm
        · exact hns h2

lemma mem_ite_singleton {c : Prop} [Decidable c] {x p : Parameter}
    (h : p ∈ (if c then [x] else [])) : p = x := by
  split at h
  · exact List.mem_singleton.mp h
  · exact absurd h (List.not_mem_nil p)

lemma mem_widthPart {code : List Char} {p : Parameter} (h : p ∈ widthPart code) :
    ∃ v, p = widthParamV v := by
  unfold widthPart at h
  split at h
  · exact ⟨_, List.mem_singleton.mp h⟩
  · exact ⟨_, mem_ite_singleton h⟩

lemma mem_heightPart {code : List Char} {p : Parameter} (h : p ∈ heightPart code) :
    ∃ v, p = heightParamV v := by
  unfold heightPart at h
  split at h
  · exact ⟨_, List.mem_singleton.mp h⟩
  · exact ⟨_, mem_ite_singleton h⟩

lemma mem_stepsPart {code : List Char} {p : Parameter} (h : p ∈ stepsPart code) :
    ∃ v, p = stepsParamV v := by
  unfold stepsPart at h
  split at h
  · exact ⟨_, List.mem_singleton.mp h⟩
  · exact ⟨_, mem_ite_singleton h⟩

lemma mem_cfgPartOpt {code : List Char} {l : List Parameter} {p : Parameter}
    (hl : cfgPartOpt code = some l) (h : p ∈ l) : ∃ v, p = cfgParamV v := by
  unfold cfgPartOpt at hl
  split at hl
  · rcases hq : pyFloatOfMatch _ with _ | q <;> rw [hq] at hl
    · cases hl
    · injection hl with hl
      subst hl
      exact ⟨_, List.mem_singleton.mp h⟩
  · split at hl <;> injection hl with hl <;> subst hl
    · exact ⟨_, List.mem_singleton.mp h⟩
    · exact absurd h (List.not_mem_nil p)

lemma mem_strengthPartOpt {code : List Char} {l : List Parameter} {p : Parameter}
    (hl : strengthPartOpt code = some l) (h : p ∈ l) : ∃ v, p = strengthParamV v := by
  unfold strengthPartOpt at hl
  split at hl
  · rcases hq : pyFloatOfMatch _ with _ | q <;> rw [hq] at hl
    · cases hl
    · injection hl with hl
      subst hl
      exact ⟨_, List.mem_singleton.mp h⟩
  · split at hl <;> injection hl with hl <;> subst hl
    · exact ⟨_, List.mem_singleton.mp h⟩
    · exact absurd h (List.not_mem_nil p)

/-- Shape of every parameter produced by the standard checklist. -/
lemma mem_stdParams {code : List Char} {ps : List Parameter}
    (h : detectStandardImageParams code = some ps) {p : Parameter} (hp : p ∈ ps) :
    p = promptParam ∨ p = negPromptParam ∨ (∃ v, p = widthParamV v) ∨
    (∃ v, p = heightParamV v) ∨ (∃ v, p = stepsParamV v) ∨ (∃ v, p = cfgParamV v) ∨
    p = seedParam ∨ (∃ v, p = strengthParamV v) ∨ p = inputImageParam := by
  unfold detectStandardImageParams at h
  rcases hc : cfgPartOpt code with _ | cfgP <;> rw [hc] at h
  · cases h
  · rcases hs : strengthPartOpt code with _ | strP <;> rw [hs] at h
    · cases h
    · injection h with h
      subst h
      simp only [List.mem_append] at hp
      rcases hp with ((((((((h1 | h2) | h3) | h4) | h5) | h6) | h7) | h8) | h9)
      · exact Or.inl (mem_ite_singleton h1)
      · exact Or.inr (Or.inl (mem_ite_singleton h2))
      · exact Or.inr (Or.inr (Or.inl (mem_widthPart h3)))
      · exact Or.inr (Or.inr (Or.inr (Or.inl (mem_heightPart h4))))
      · exact Or.inr (Or.inr (Or.inr (Or.inr (Or.inl (mem_stepsPart h5)))))
      · exact Or.inr (Or.inr (Or.inr (Or.inr (Or.inr (Or.inl (mem_cfgPartOpt hc h6))))))
      · exact Or.inr (Or.inr (Or.inr (Or.inr (Or.inr (Or.inr (Or.inl
          (mem_ite_singleton h7)))))))
      · exact Or.inr (Or.inr (Or.inr (Or.inr (Or.inr (Or.inr (Or.inr (Or.inl
          (mem_strengthPartOpt hs h8))))))))
      · exact Or.inr (Or.inr (Or.inr (Or.inr (Or.inr (Or.inr (Or.inr (Or.inr
          (mem_ite_singleton h9))))))))

/-- Shape of every parameter produced by the gradio detector. -/
lemma mem_gradioParams {code : List Char} {p : Parameter}
    (hp : p ∈ detectGradioParams code) :
    (∃ lab, p = grTextParam lab) ∨ (∃ a b lab, p = grSliderParam a b lab) ∨
    (∃ lab, p = grImageParam lab) := by
  unfold detectGradioParams at hp
  simp only [List.mem_append] at hp
  rcases hp with (h1 | h2) | h3
  · rcases List.mem_map.mp h1 with ⟨lab, _, rfl⟩
    exact Or.inl ⟨lab, rfl⟩
  · rcases List.mem_map.mp h2 with ⟨t, _, rfl⟩
    exact Or.inr (Or.inl ⟨t.1, t.2.1, t.2.2, rfl⟩)
  · rcases List.mem_map.mp h3 with ⟨lab, _, rfl⟩
    exact Or.inr (Or.inr ⟨lab, rfl⟩)

/-- Shape of every parameter produced by the widget detector. -/
lemma mem_widgetParams {code : List Char} {p : Parameter}
    (hp : p ∈ detectWidgetParams code) :
    (∃ lab, p = grTextParam lab) ∨ (∃ a b lab, p = grSliderParam a b lab) := by
  unfold detectWidgetParams at hp
  simp only [List.mem_append] at hp
  rcases hp with h1 | h2
  · rcases List.mem_map.mp h1 with ⟨lab, _, rfl⟩
    exact Or.inl ⟨lab, rfl⟩
  · rcases List.mem_map.mp h2 with ⟨t, _, rfl⟩
    exact Or.inr ⟨t.1, t.2.1, t.2.2, rfl⟩

/-- Case analysis of `detectParameters`, as. -/
lemma detectParameters_cases {code : List Char} {ps : List Parameter}
    (h : detectParameters code = some ps) :
    ∃ std, detectStandardImageParams code = some std ∧
      ((dedupGo [] (std ++ detectGradioParams code ++ detectWidgetParams code) = [] ∧
          ps = defaultImageParams) ∨
        (ps = dedupGo [] (std ++ detectGradioParams code ++ detectWidgetParams code) ∧
          ps ≠ [])) := by
  unfold detectParameters at h
  rcases hstd : detectStandardImageParams code with _ | std <;> rw [hstd] at h
  · cases h
  · refine ⟨std, rfl, ?_⟩
    injection h with h
    by_cases hd : dedupGo []
        (std ++ detectGradioParams code ++ detectWidgetParams code) = []
    · left
      rw [if_pos hd] at h
      exact ⟨hd, h.symm⟩
    · right
      rw [if_neg hd] at h
      exact ⟨h.symm, h.symm ▸ hd⟩

/-- A `parseJson` success exposes the parameter pipeline. -/
lemma parseJson_parameters {nb : Notebook} {fname : List Char} {a : NotebookAnalysis}
    (h : parseJson nb fname = some a) :
    detectParameters (allCodeOf nb) = some a.parameters := by
  unfold parseJson analyzeNotebook at h
  rcases hps : detectParameters (allCodeOf nb) with _ | ps <;> rw [hps] at h
  · cases h
  · injection h with h
    subst h
    rfl

/-- A `parseJson` success exposes the title field. -/
lemma parseJson_title {nb : Notebook} {fname : List Char} {a : NotebookAnalysis}
    (h : parseJson nb fname = some a) :
    a.title = (extractMetadata (mdSourcesOf nb) fname).1 := by
  unfold parseJson analyzeNotebook at h
  rcases hps : detectParameters (allCodeOf nb) with _ | ps <;> rw [hps] at h
  · cases h
  · injection h with h
    subst h
    rfl

/-- A `parseJson` success exposes the outputs field. -/
lemma parseJson_outputs {nb : Notebook} {fname : List Char} {a : NotebookAnalysis}
    (h : parseJson nb fname = some a) :
    a.outputs = detectOutputs (allCodeOf nb) := by
  unfold parseJson analyzeNotebook at h
  rcases hps : detectParameters (allCodeOf nb) with _ | ps <;> rw [hps] at h
  · cases h
  · injection h with h
    subst h
    rfl

/-- The fold describing which heading ends up as the title: each doc cell
with an `^#\s+(.+)$` match overwrites the running title. -/
def lastHeadingFold (init : List Char) (srcs : List (List Char)) : List Char :=
  srcs.foldl (fun acc s =>
    match findH1 s with
    | some g => pyStripWs g
    | Option.none => acc) init

lemma extractMetaGo_no_desc :
    ∀ (srcs : List (List Char)) (t : List Char),
      (∀ s ∈ srcs, pyStripWs (stripHeadingLines s) = []) →
      extractMetaGo t srcs = (lastHeadingFold t srcs, [])
  | [], t, _ => rfl
  | src :: rest, t, h => by
    have hsrc : pyStripWs (stripHeadingLines src) = [] := h src (by simp)
    rw [extractMetaGo]
    simp only [hsrc]
    rw [if_neg (by simp)]
    have ih := extractMetaGo_no_desc rest
      (match findH1 src with
       | some g => pyStripWs g
       | Option.none => t)
      (fun s hs => h s (List.mem_cons_of_mem _ hs))
    rw [ih]
    rfl

/-- C9 core fact: `_sanitize_name` is idempotent. -/
lemma sanitizeName_idem (s : List Char) :
    sanitizeName (sanitizeName s) = sanitizeName s := by
  have hall := sanitizeName_allowed s
  have hmaplc : (sanitizeName s).map lcChar = sanitizeName s := by
    rw [List.map_congr_left (fun c hc => lcChar_of_allowed (hall c hc))]
    exact List.map_id _
  have hmapsub : (sanitizeName s).map subChar = sanitizeName s := by
    rw [List.map_congr_left (fun c hc => subChar_of_allowed (hall c hc))]
    exact List.map_id _
  have hcoll : collapseGo false (sanitizeName s) = sanitizeName s :=
    (collapseGo_id_of_chain _ (sanitizeName_chain s)).1
  calc sanitizeName (sanitizeName s)
      = pyStripUnd (collapseGo false (((sanitizeName s).map lcChar).map subChar)) := rfl
    _ = pyStripUnd (collapseGo false (sanitizeName s)) := by rw [hmaplc, hmapsub]
    _ = pyStripUnd (sanitizeName s) := by rw [hcoll]
    _ = sanitizeName s := sanitizeName_strip_fixed s

end CG

namespace CG

lemma allCode_nil_of_no_code {nb : Notebook}
    (h : ∀ c ∈ nb.cells.getD [], ¬ c.cell_type = some "code".toList) :
    allCodeOf nb = [] := by
  have hcc : codeCellsOf nb = [] := by
    unfold codeCellsOf
    rw [List.filter_eq_nil_iff]
    intro c hc
    simp only [decide_eq_true_eq]
    exact h c hc
  unfold allCodeOf
  rw [hcc]
  rfl

/-- C1.  A notebook with no code cells is analysed over the empty code blob:
`analyze` succeeds and yields exactly the fallback parameter set
(prompt, negative_prompt, width, height, steps, in order) and exactly one
output, of kind image. -/
theorem C1_no_code_cells_fallback (nb : Notebook) (fname : List Char)
    (h : ∀ c ∈ nb.cells.getD [], ¬ c.cell_type = some "code".toList) :
    ∃ a, parseJson nb fname = some a ∧
      a.parameters = defaultImageParams ∧
      a.parameters.map (fun p => p.name) =
        ["prompt".toList, "negative_prompt".toList, "width".toList,
          "height".toList, "steps".toList] ∧
      a.outputs = [imageOutput] ∧
      a.outputs.map (fun o => o.output_type) = [OutputType.IMAGE] := by
  have hac : allCodeOf nb = [] := allCode_nil_of_no_code h
  have hdp : detectParameters ([] : List Char) = some defaultImageParams := by rfl
  unfold parseJson analyzeNotebook
  rw [hac, hdp]
  exact ⟨_, rfl, rfl, rfl, rfl, rfl⟩

/-- Concrete no-code-cell notebook for the C1 witness. -/
def nbC1 : Notebook :=
  ⟨some [⟨some "markdown".toList, SourceVal.str "hello".toList⟩]⟩

/-- C1 witness: the theorem applied to a concrete markdown-only notebook. -/
theorem C1_witness :
    ∃ a, parseJson nbC1 "x.ipynb".toList = some a ∧
      a.parameters = defaultImageParams ∧
      a.parameters.map (fun p => p.name) =
        ["prompt".toList, "negative_prompt".toList, "width".toList,
          "height".toList, "steps".toList] ∧
      a.outputs = [imageOutput] ∧
      a.outputs.map (fun o => o.output_type) = [OutputType.IMAGE] :=
  C1_no_code_cells_fallback nbC1 "x.ipynb".toList (by decide)

/-- Notebook structure lacking the `cells` entry. -/
def nbC3 : Notebook := ⟨Option.none⟩

/-- C3 counterexample: a notebook without a `cells` entry is NOT rejected
with an ingestion error — `notebook.get('cells', [])` silently substitutes an
empty cell list and analysis falls through to the default Analysis. -/
theorem C3_counterexample :
    parseJson nbC3 "nb".toList ≠ Option.none ∧
    (parseJson nbC3 "nb".toList).map (fun a => a.parameters) =
      some defaultImageParams ∧
    (parseJson nbC3 "nb".toList).map (fun a => a.outputs) = some [imageOutput] :=
  ⟨by decide, by decide, by decide⟩

/-- C3 amended: a notebook structure lacking a `cells` entry is treated as a
notebook with an empty cell list; analysis succeeds and returns the default
Analysis (fallback parameters, default image output) instead of raising. -/
theorem C3_amended (fname : List Char) :
    parseJson ⟨Option.none⟩ fname = parseJson ⟨some []⟩ fname ∧
    ∃ a, parseJson ⟨Option.none⟩ fname = some a ∧
      a.parameters = defaultImageParams ∧ a.outputs = [imageOutput] := by
  constructor
  · rfl
  · have hac : allCodeOf ⟨Option.none⟩ = [] := rfl
    unfold parseJson analyzeNotebook
    rw [hac]
    exact ⟨_, rfl, rfl, rfl⟩

/-- Two markdown cells, each a heading-only cell. -/
def nbC4 : Notebook :=
  ⟨some [⟨some "markdown".toList, SourceVal.list ["# A".toList]⟩,
         ⟨some "markdown".toList, SourceVal.list ["# B".toList]⟩]⟩

/-- C4 counterexample: with headings `# A` then `# B` in two documentation
cells (and no prose), the title is `B` — the heading of the LATER cell — not
the earliest heading `A`. -/
theorem C4_counterexample :
    (parseJson nbC4 "t.ipynb".toList).map (fun a => a.title) = some "B".toList ∧
    some "B".toList ≠ some "A".toList :=
  ⟨by decide, by decide⟩

/-- C4 amended: the title-extraction loop lets every later documentation cell
containing a heading overwrite the title, and only stops early when a cell
contributes a non-empty description.  When no documentation cell contains
non-heading prose, the title is the heading of the LAST cell that has one
(falling back to the filename-derived title). -/
theorem C4_amended (nb : Notebook) (fname : List Char) (a : NotebookAnalysis)
    (h : parseJson nb fname = some a)
    (hnp : ∀ s ∈ mdSourcesOf nb, pyStripWs (stripHeadingLines s) = []) :
    a.title = lastHeadingFold (defaultTitle fname) (mdSourcesOf nb) := by
  rw [parseJson_title h]
  unfold extractMetadata
  rw [extractMetaGo_no_desc (mdSourcesOf nb) (defaultTitle fname) hnp]

/-- C4 witness: the amended theorem applied to the two-heading notebook. -/
theorem C4_amended_witness :
    ∃ a, parseJson nbC4 "t.ipynb".toList = some a ∧ a.title = "B".toList := by
  rcases ha : parseJson nbC4 "t.ipynb".toList with _ | a
  · exact absurd ha (by decide)
  · refine ⟨a, rfl, ?_⟩
    have hfold := C4_amended nbC4 "t.ipynb".toList a ha (by decide)
    rw [hfold]
    decide

end CG

namespace CG

lemma sanitizeName_all_allowed (lab : List Char) :
    (sanitizeName lab).all isAllowedCh = true :=
  List.all_eq_true.mpr (fun c hc => sanitizeName_allowed lab c hc)

/-- Notebook whose only detection is a gradio textbox with a label that
sanitizes to the empty string. -/
def nbC2 : Notebook :=
  ⟨some [⟨some "code".toList,
    SourceVal.list ["gr.Textbox(label=\"!!!\")".toList]⟩]⟩

/-- C2 counterexample: the label `!!!` sanitizes to the empty name, so the
Analysis contains a parameter whose name does not match `[a-z0-9_]+`
(non-empty). -/
theorem C2_counterexample :
    ∃ a, parseJson nbC2 "t.ipynb".toList = some a ∧
      ∃ p, p ∈ a.parameters ∧ p.name = [] := by
  refine ⟨⟨"T".toList, [], [grTextParam "!!!".toList], [imageOutput],
      false, false, false, "unknown".toList⟩, by decide,
    grTextParam "!!!".toList, by decide, by decide⟩

/-- C2 amended: every parameter name is distinct and consists only of
`[a-z0-9_]` characters, but may be empty (when a detected label contains no
alphanumeric character); collisions are resolved first-detected-wins: a
surviving parameter is always the first detected parameter bearing its
name. -/
theorem C2_amended :
    (∀ (nb : Notebook) (fname : List Char) (a : NotebookAnalysis),
        parseJson nb fname = some a →
          (a.parameters.map (fun p => p.name)).Nodup ∧
          ∀ p ∈ a.parameters, p.name.all isAllowedCh = true) ∧
    (∀ (L : List Parameter) (p : Parameter), p ∈ dedupGo [] L →
        L.find? (fun q => q.name == p.name) = some p) := by
  constructor
  · intro nb fname a h
    have hdp := parseJson_parameters h
    rcases detectParameters_cases hdp with ⟨std, hstd, hcase⟩
    rcases hcase with ⟨_, hdef⟩ | ⟨heq, _⟩
    · rw [hdef]
      exact ⟨by decide, by decide⟩
    · rw [heq]
      constructor
      · exact (dedupGo_nodup _ []).1
      · intro p hp
        have hmem := mem_dedupGo _ _ hp
        simp only [List.mem_append] at hmem
        rcases hmem with (h1 | h2) | h3
        · rcases mem_stdParams hstd h1 with
            h | h | ⟨v, h⟩ | ⟨v, h⟩ | ⟨v, h⟩ | ⟨v, h⟩ | h | ⟨v, h⟩ | h <;> subst h <;>
            first
            | decide
            | (simp only [widthParamV, heightParamV, stepsParamV, cfgParamV,
                strengthParamV]; decide)
        · rcases mem_gradioParams h2 with ⟨lab, h⟩ | ⟨x, y, lab, h⟩ | ⟨lab, h⟩ <;>
            subst h <;> exact sanitizeName_all_allowed lab
        · rcases mem_widgetParams h3 with ⟨lab, h⟩ | ⟨x, y, lab, h⟩ <;>
            subst h <;> exact sanitizeName_all_allowed lab
  · intro L p hp
    exact dedupGo_find_first L [] hp

/-- C2 amended witness: the amended statement applied to the concrete
notebook of the counterexample and to a concrete duplicate-bearing list. -/
theorem C2_amended_witness :
    (∃ a, parseJson nbC2 "t.ipynb".toList = some a ∧
      (a.parameters.map (fun p => p.name)).Nodup ∧
      ∀ p ∈ a.parameters, p.name.all isAllowedCh = true) ∧
    [promptParam, negPromptParam, promptParam].find?
        (fun q => q.name == promptParam.name) = some promptParam := by
  constructor
  · rcases ha : parseJson nbC2 "t.ipynb".toList with _ | a
    · exact absurd ha (by decide)
    · exact ⟨a, rfl, C2_amended.1 nbC2 "t.ipynb".toList a ha⟩
  · exact C2_amended.2 [promptParam, negPromptParam, promptParam] promptParam
      (by decide)

end CG

namespace CG

/-- C10.  The engine only ever emits parameters of the five kinds
textarea, text, number, slider, image: checkbox, dropdown, file and color
never occur, although the pattern table lists checkbox/dropdown/file rules
and the renderer supports those kinds. -/
theorem C10_kinds_closed (nb : Notebook) (fname : List Char) (a : NotebookAnalysis)
    (h : parseJson nb fname = some a) :
    ∀ p ∈ a.parameters,
      p.param_type ∈ [ParameterType.TEXTAREA, ParameterType.TEXT,
        ParameterType.NUMBER, ParameterType.SLIDER, ParameterType.IMAGE] := by
  intro p hp
  have hdp := parseJson_parameters h
  rcases detectParameters_cases hdp with ⟨std, hstd, hcase⟩
  rcases hcase with ⟨_, hdef⟩ | ⟨heq, _⟩
  · rw [hdef] at hp
    fin_cases hp <;> decide
  · rw [heq] at hp
    have hmem := mem_dedupGo _ _ hp
    simp only [List.mem_append] at hmem
    rcases hmem with (h1 | h2) | h3
    · rcases mem_stdParams hstd h1 with
        h | h | ⟨v, h⟩ | ⟨v, h⟩ | ⟨v, h⟩ | ⟨v, h⟩ | h | ⟨v, h⟩ | h <;> subst h <;>
        first
        | decide
        | (simp only [widthParamV, heightParamV, stepsParamV, cfgParamV,
            strengthParamV]; decide)
    · rcases mem_gradioParams h2 with ⟨lab, h⟩ | ⟨x, y, lab, h⟩ | ⟨lab, h⟩ <;>
        subst h <;> simp only [grTextParam, grSliderParam, grImageParam] <;> decide
    · rcases mem_widgetParams h3 with ⟨lab, h⟩ | ⟨x, y, lab, h⟩ <;>
        subst h <;> simp only [grTextParam, grSliderParam] <;> decide

/-- Notebook exercising several detectors for the C10 witness. -/
def nbC10 : Notebook :=
  ⟨some [⟨some "code".toList,
    SourceVal.list ["width = 768\n".toList,
      "gr.Textbox(label=\"Style\")\n".toList]⟩]⟩

/-- C10 witness: the theorem applied to a concrete notebook. -/
theorem C10_witness :
    ∃ a, parseJson nbC10 "t.ipynb".toList = some a ∧
      ∀ p ∈ a.parameters,
        p.param_type ∈ [ParameterType.TEXTAREA, ParameterType.TEXT,
          ParameterType.NUMBER, ParameterType.SLIDER, ParameterType.IMAGE] := by
  rcases ha : parseJson nbC10 "t.ipynb".toList with _ | a
  · exact absurd ha (by decide)
  · exact ⟨a, rfl, C10_kinds_closed nbC10 "t.ipynb".toList a ha⟩

/-- The closed seven-value enumeration of model families. -/
def modelTypeValues : List (List Char) :=
  ["stable_diffusion".toList, "sdxl".toList, "flux".toList, "controlnet".toList,
   "diffusers".toList, "transformers".toList, "unknown".toList]

/-- C7.  Model-family classification is total and closed: for every input
text it returns exactly one of the seven enumerated values, tries the
families in fixed priority order (flux, sdxl, controlnet, stable_diffusion,
diffusers, transformers — most specific first), and returns `unknown` when
no keyword pattern matches. -/
theorem C7_model_type_total (code : List Char) :
    detectModelType code ∈ modelTypeValues ∧
    (ciContains "flux".toList code = true → detectModelType code = "flux".toList) ∧
    (ciContains "flux".toList code = false →
      ciContainsAny ["sdxl".toList, "stable-diffusion-xl".toList] code = true →
      detectModelType code = "sdxl".toList) ∧
    ((ciContains "flux".toList code = false ∧
      ciContainsAny ["sdxl".toList, "stable-diffusion-xl".toList] code = false ∧
      ciContains "controlnet".toList code = false ∧
      ciContainsAny ["stablediffusion".toList, "stable-diffusion".toList,
        "runwayml".toList, "compvis".toList] code = false ∧
      ciContains "diffusers".toList code = false ∧
      ciContains "transformers".toList code = false) →
      detectModelType code = "unknown".toList) := by
  refine ⟨?_, ?_, ?_, ?_⟩
  · unfold detectModelType
    split
    · decide
    · split
      · decide
      · split
        · decide
        · split
          · decide
          · split
            · decide
            · split
              · decide
              · decide
  · intro hf
    unfold detectModelType
    rw [if_pos hf]
  · intro hf hs
    unfold detectModelType
    rw [if_neg (by rw [hf]; simp), if_pos hs]
  · rintro ⟨h1, h2, h3, h4, h5, h6⟩
    unfold detectModelType
    rw [if_neg (by rw [h1]; simp), if_neg (by rw [h2]; simp),
      if_neg (by rw [h3]; simp), if_neg (by rw [h4]; simp),
      if_neg (by rw [h5]; simp), if_neg (by rw [h6]; simp)]

/-- C7 witness: the theorem applied at concrete inputs. -/
theorem C7_witness :
    detectModelType "hello world".toList = "unknown".toList ∧
    detectModelType "pipe = FLUX.load()".toList = "flux".toList ∧
    detectModelType "stable-diffusion-xl pipeline".toList = "sdxl".toList ∧
    detectModelType "hello world".toList ∈ modelTypeValues :=
  ⟨(C7_model_type_total "hello world".toList).2.2.2 (by decide),
   (C7_model_type_total "pipe = FLUX.load()".toList).2.1 (by decide),
   (C7_model_type_total "stable-diffusion-xl pipeline".toList).2.2.1 (by decide)
     (by decide),
   (C7_model_type_total "hello world".toList).1⟩

end CG

namespace CG

lemma std_structure {code : List Char} {std : List Parameter}
    (h : detectStandardImageParams code = some std) :
    ∃ cfgP strP, cfgPartOpt code = some cfgP ∧ strengthPartOpt code = some strP ∧
      std = promptPart code ++ negPart code ++ widthPart code ++ heightPart code ++
        stepsPart code ++ cfgP ++ seedPart code ++ strP ++ inputImagePart code := by
  unfold detectStandardImageParams at h
  rcases hc : cfgPartOpt code with _ | cfgP <;> rw [hc] at h
  · cases h
  · rcases hs : strengthPartOpt code with _ | strP <;> rw [hs] at h
    · cases h
    · injection h with h
      exact ⟨cfgP, strP, rfl, rfl, h.symm⟩

lemma find?_none_of_all {l : List Parameter} {pred : Parameter → Bool}
    (h : ∀ x ∈ l, pred x = false) : l.find? pred = Option.none :=
  List.find?_eq_none.mpr (fun x hx => by simp [h x hx])

lemma find?_self_singleton (P : Parameter) :
    List.find? (fun q => q.name == P.name) [P] = some P :=
  List.find?_cons_of_pos [] (by simp)

lemma find?_none_promptPart (code nm : List Char)
    (h : ("prompt".toList == nm) = false) :
    (promptPart code).find? (fun q => q.name == nm) = Option.none :=
  find?_none_of_all (fun x hx => by
    rw [mem_ite_singleton hx]
    exact h)

lemma find?_none_negPart (code nm : List Char)
    (h : ("negative_prompt".toList == nm) = false) :
    (negPart code).find? (fun q => q.name == nm) = Option.none :=
  find?_none_of_all (fun x hx => by
    rw [mem_ite_singleton hx]
    exact h)

lemma find?_none_widthPart (code nm : List Char)
    (h : ("width".toList == nm) = false) :
    (widthPart code).find? (fun q => q.name == nm) = Option.none :=
  find?_none_of_all (fun x hx => by
    rcases mem_widthPart hx with ⟨v, hv⟩
    rw [hv]
    exact h)

lemma find?_none_heightPart (code nm : List Char)
    (h : ("height".toList == nm) = false) :
    (heightPart code).find? (fun q => q.name == nm) = Option.none :=
  find?_none_of_all (fun x hx => by
    rcases mem_heightPart hx with ⟨v, hv⟩
    rw [hv]
    exact h)

lemma find?_none_stepsPart (code nm : List Char)
    (h : ("steps".toList == nm) = false) :
    (stepsPart code).find? (fun q => q.name == nm) = Option.none :=
  find?_none_of_all (fun x hx => by
    rcases mem_stepsPart hx with ⟨v, hv⟩
    rw [hv]
    exact h)

lemma find?_none_cfgList {code : List Char} {cfgP : List Parameter} (nm : List Char)
    (hc : cfgPartOpt code = some cfgP)
    (h : ("cfg_scale".toList == nm) = false) :
    cfgP.find? (fun q => q.name == nm) = Option.none :=
  find?_none_of_all (fun x hx => by
    rcases mem_cfgPartOpt hc hx with ⟨v, hv⟩
    rw [hv]
    exact h)

lemma find?_none_seedPart (code nm : List Char)
    (h : ("seed".toList == nm) = false) :
    (seedPart code).find? (fun q => q.name == nm) = Option.none :=
  find?_none_of_all (fun x hx => by
    rw [mem_ite_singleton hx]
    exact h)

/-- A parameter that is the first of its name in the pre-dedup detection list
survives de-duplication into the final parameter list. -/
lemma seeded_param_mem {code : List Char} {ps : List Parameter} {P : Parameter}
    (hps : detectParameters code = some ps)
    (hfind : ∀ std, detectStandardImageParams code = some std →
      (std ++ detectGradioParams code ++ detectWidgetParams code).find?
        (fun q => q.name == P.name) = some P) :
    P ∈ ps := by
  rcases detectParameters_cases hps with ⟨std, hstd, hcase⟩
  have hmem : P ∈ dedupGo []
      (std ++ detectGradioParams code ++ detectWidgetParams code) :=
    dedupGo_keeps_first _ [] (hfind std hstd) (by simp)
  rcases hcase with ⟨hnil, _⟩ | ⟨heq, _⟩
  · rw [hnil] at hmem
    exact absurd hmem (List.not_mem_nil _)
  · exact heq ▸ hmem

lemma cfgPartOpt_of_search {code txt : List Char}
    (htxt : searchAssignFloat ["cfg_scale".toList, "guidance_scale".toList,
      "cfg".toList] code = some txt) :
    cfgPartOpt code =
      (pyFloatOfMatch txt).map (fun q => [cfgParamV (PValue.float q)]) := by
  unfold cfgPartOpt
  rw [htxt]

lemma strengthPartOpt_of_search {code txt : List Char}
    (htxt : searchAssignFloat ["strength".toList] code = some txt) :
    strengthPartOpt code =
      (pyFloatOfMatch txt).map (fun q => [strengthParamV (PValue.float q)]) := by
  unfold strengthPartOpt
  rw [htxt]

/-- Embeds the uncaught `ValueError` of `float(cfg_match.group(1))`: a cfg
assignment whose `[\d.]+` capture is not a valid float literal aborts the
whole analysis. -/
lemma detectParameters_none_of_cfg_crash {code txt : List Char}
    (htxt : searchAssignFloat ["cfg_scale".toList, "guidance_scale".toList,
      "cfg".toList] code = some txt)
    (hpf : pyFloatOfMatch txt = Option.none) :
    detectParameters code = Option.none := by
  have hc0 : cfgPartOpt code = Option.none := by
    rw [cfgPartOpt_of_search htxt, hpf]
    rfl
  have hstd0 : detectStandardImageParams code = Option.none := by
    unfold detectStandardImageParams
    rcases hsp : strengthPartOpt code with _ | sp <;> rw [hc0]
  unfold detectParameters
  rw [hstd0]

/-- Embeds the uncaught `ValueError` of `float(strength_match.group(1))`. -/
lemma detectParameters_none_of_strength_crash {code txt : List Char}
    (htxt : searchAssignFloat ["strength".toList] code = some txt)
    (hpf : pyFloatOfMatch txt = Option.none) :
    detectParameters code = Option.none := by
  have hs0 : strengthPartOpt code = Option.none := by
    rw [strengthPartOpt_of_search htxt, hpf]
    rfl
  have hstd0 : detectStandardImageParams code = Option.none := by
    unfold detectStandardImageParams
    rcases hcp : cfgPartOpt code with _ | cp <;> rw [hs0]
  unfold detectParameters
  rw [hstd0]

/-- C6.  An explicit `name = literal` assignment in the code blob seeds the
default of the corresponding standard parameter in place of the built-in
fallback, for every assignment-seeded family: width (fallback 512), height
(512), steps (50), cfg_scale (7.5) and strength (0.75).  For the integer
families the captured digits become the default directly; for the float
families, whenever the analysis returns at all, the captured text parsed as a
float becomes the default — and when the capture is not a valid float
literal, `float(...)` raises and no Analysis is produced (last two
conjuncts), so no parameter ever carries the fallback in the presence of an
assignment.  (The remaining standard parameters — prompt, negative_prompt,
seed, input_image — have no assignment path in the source: their defaults are
fixed.) -/
theorem C6_assignment_seeds_default (code : List Char) :
    (∀ n, searchAssign ["width".toList, "w".toList] code = some n →
      ∀ ps, detectParameters code = some ps →
        ∃ p, p ∈ ps ∧ p.name = "width".toList ∧ p.default_value = PValue.int n) ∧
    (∀ n, searchAssign ["height".toList, "h".toList] code = some n →
      ∀ ps, detectParameters code = some ps →
        ∃ p, p ∈ ps ∧ p.name = "height".toList ∧ p.default_value = PValue.int n) ∧
    (∀ n, searchAssign ["steps".toList, "num_inference_steps".toList,
        "inference_steps".toList] code = some n →
      ∀ ps, detectParameters code = some ps →
        ∃ p, p ∈ ps ∧ p.name = "steps".toList ∧ p.default_value = PValue.int n) ∧
    (∀ txt, searchAssignFloat ["cfg_scale".toList, "guidance_scale".toList,
        "cfg".toList] code = some txt →
      ∀ ps, detectParameters code = some ps →
        ∃ q, pyFloatOfMatch txt = some q ∧
          ∃ p, p ∈ ps ∧ p.name = "cfg_scale".toList ∧
            p.default_value = PValue.float q) ∧
    (∀ txt, searchAssignFloat ["strength".toList] code = some txt →
      ∀ ps, detectParameters code = some ps →
        ∃ q, pyFloatOfMatch txt = some q ∧
          ∃ p, p ∈ ps ∧ p.name = "strength".toList ∧
            p.default_value = PValue.float q) ∧
    (∀ txt, searchAssignFloat ["cfg_scale".toList, "guidance_scale".toList,
        "cfg".toList] code = some txt →
      pyFloatOfMatch txt = Option.none → detectParameters code = Option.none) ∧
    (∀ txt, searchAssignFloat ["strength".toList] code = some txt →
      pyFloatOfMatch txt = Option.none → detectParameters code = Option.none) := by
  refine ⟨?_, ?_, ?_, ?_, ?_, ?_, ?_⟩
  · intro n hn ps hps
    refine ⟨widthParamV (PValue.int n), ?_, rfl, rfl⟩
    refine seeded_param_mem hps ?_
    intro std hstd
    rcases std_structure hstd with ⟨cfgP, strP, hc, hs2, hstdeq⟩
    have hwp : widthPart code = [widthParamV (PValue.int n)] := by
      unfold widthPart
      rw [hn]
    rw [hstdeq, hwp]
    simp only [List.find?_append,
      find?_none_promptPart code (widthParamV (PValue.int n)).name
        (by show ("prompt".toList == "width".toList) = false; decide),
      find?_none_negPart code (widthParamV (PValue.int n)).name
        (by show ("negative_prompt".toList == "width".toList) = false; decide),
      Option.none_or]
    rw [find?_self_singleton]
    rfl
  · intro n hn ps hps
    refine ⟨heightParamV (PValue.int n), ?_, rfl, rfl⟩
    refine seeded_param_mem hps ?_
    intro std hstd
    rcases std_structure hstd with ⟨cfgP, strP, hc, hs2, hstdeq⟩
    have hhp : heightPart code = [heightParamV (PValue.int n)] := by
      unfold heightPart
      rw [hn]
    rw [hstdeq, hhp]
    simp only [List.find?_append,
      find?_none_promptPart code (heightParamV (PValue.int n)).name
        (by show ("prompt".toList == "height".toList) = false; decide),
      find?_none_negPart code (heightParamV (PValue.int n)).name
        (by show ("negative_prompt".toList == "height".toList) = false; decide),
      find?_none_widthPart code (heightParamV (PValue.int n)).name
        (by show ("width".toList == "height".toList) = false; decide),
      Option.none_or]
    rw [find?_self_singleton]
    rfl
  · intro n hn ps hps
    refine ⟨stepsParamV (PValue.int n), ?_, rfl, rfl⟩
    refine seeded_param_mem hps ?_
    intro std hstd
    rcases std_structure hstd with ⟨cfgP, strP, hc, hs2, hstdeq⟩
    have hsp : stepsPart code = [stepsParamV (PValue.int n)] := by
      unfold stepsPart
      rw [hn]
    rw [hstdeq, hsp]
    simp only [List.find?_append,
      find?_none_promptPart code (stepsParamV (PValue.int n)).name
        (by show ("prompt".toList == "steps".toList) = false; decide),
      find?_none_negPart code (stepsParamV (PValue.int n)).name
        (by show ("negative_prompt".toList == "steps".toList) = false; decide),
      find?_none_widthPart code (stepsParamV (PValue.int n)).name
        (by show ("width".toList == "steps".toList) = false; decide),
      find?_none_heightPart code (stepsParamV (PValue.int n)).name
        (by show ("height".toList == "steps".toList) = false; decide),
      Option.none_or]
    rw [find?_self_singleton]
    rfl
  · intro txt htxt ps hps
    rcases hpf : pyFloatOfMatch txt with _ | q
    · exact absurd hps (by
        rw [detectParameters_none_of_cfg_crash htxt hpf]
        exact fun h => Option.noConfusion h)
    · refine ⟨q, rfl, cfgParamV (PValue.float q), ?_, rfl, rfl⟩
      refine seeded_param_mem hps ?_
      intro std hstd
      rcases std_structure hstd with ⟨cfgP, strP, hc, hs2, hstdeq⟩
      have hcfg : cfgP = [cfgParamV (PValue.float q)] := by
        have h2 := (cfgPartOpt_of_search htxt).symm.trans hc
        rw [hpf] at h2
        simp only [Option.map_some'] at h2
        injection h2 with h2
        exact h2.symm
      rw [hstdeq, hcfg]
      simp only [List.find?_append,
        find?_none_promptPart code (cfgParamV (PValue.float q)).name
          (by show ("prompt".toList == "cfg_scale".toList) = false; decide),
        find?_none_negPart code (cfgParamV (PValue.float q)).name
          (by show ("negative_prompt".toList == "cfg_scale".toList) = false; decide),
        find?_none_widthPart code (cfgParamV (PValue.float q)).name
          (by show ("width".toList == "cfg_scale".toList) = false; decide),
        find?_none_heightPart code (cfgParamV (PValue.float q)).name
          (by show ("height".toList == "cfg_scale".toList) = false; decide),
        find?_none_stepsPart code (cfgParamV (PValue.float q)).name
          (by show ("steps".toList == "cfg_scale".toList) = false; decide),
        Option.none_or]
      rw [find?_self_singleton]
      rfl
  · intro txt htxt ps hps
    rcases hpf : pyFloatOfMatch txt with _ | q
    · exact absurd hps (by
        rw [detectParameters_none_of_strength_crash htxt hpf]
        exact fun h => Option.noConfusion h)
    · refine ⟨q, rfl, strengthParamV (PValue.float q), ?_, rfl, rfl⟩
      refine seeded_param_mem hps ?_
      intro std hstd
      rcases std_structure hstd with ⟨cfgP, strP, hc, hs2, hstdeq⟩
      have hstr : strP = [strengthParamV (PValue.float q)] := by
        have h2 := (strengthPartOpt_of_search htxt).symm.trans hs2
        rw [hpf] at h2
        simp only [Option.map_some'] at h2
        injection h2 with h2
        exact h2.symm
      rw [hstdeq, hstr]
      simp only [List.find?_append,
        find?_none_promptPart code (strengthParamV (PValue.float q)).name
          (by show ("prompt".toList == "strength".toList) = false; decide),
        find?_none_negPart code (strengthParamV (PValue.float q)).name
          (by show ("negative_prompt".toList == "strength".toList) = false; decide),
        find?_none_widthPart code (strengthParamV (PValue.float q)).name
          (by show ("width".toList == "strength".toList) = false; decide),
        find?_none_heightPart code (strengthParamV (PValue.float q)).name
          (by show ("height".toList == "strength".toList) = false; decide),
        find?_none_stepsPart code (strengthParamV (PValue.float q)).name
          (by show ("steps".toList == "strength".toList) = false; decide),
        find?_none_cfgList (strengthParamV (PValue.float q)).name hc
          (by show ("cfg_scale".toList == "strength".toList) = false; decide),
        find?_none_seedPart code (strengthParamV (PValue.float q)).name
          (by show ("seed".toList == "strength".toList) = false; decide),
        Option.none_or]
      rw [find?_self_singleton]
      rfl
  · intro txt htxt hpf
    exact detectParameters_none_of_cfg_crash htxt hpf
  · intro txt htxt hpf
    exact detectParameters_none_of_strength_crash htxt hpf

/-- Code blob for the C6 witness: an explicit assignment for each of the five
assignment-seeded families, plus the bare keyword `width` elsewhere. -/
def codeC6 : List Char :=
  "height = 384\nwidth = 768\nsteps = 30\ncfg_scale = 9.5\nstrength = 0.5\nwidth\n".toList

/-- Code blob whose cfg capture `.` is not a valid float literal. -/
def codeC6bad : List Char :=
  "cfg = .\n".toList

/-- C6 witness: all five assignment families seeded at their assigned
literals (768, 384, 30, 9.5, 0.5) instead of the fallbacks (512, 512, 50,
7.5, 0.75), and a malformed cfg capture aborting the analysis. -/
theorem C6_witness :
    ∃ ps, detectParameters codeC6 = some ps ∧
      (∃ p, p ∈ ps ∧ p.name = "width".toList ∧ p.default_value = PValue.int 768) ∧
      (∃ p, p ∈ ps ∧ p.name = "height".toList ∧ p.default_value = PValue.int 384) ∧
      (∃ p, p ∈ ps ∧ p.name = "steps".toList ∧ p.default_value = PValue.int 30) ∧
      (∃ q, pyFloatOfMatch "9.5".toList = some q ∧
        ∃ p, p ∈ ps ∧ p.name = "cfg_scale".toList ∧
          p.default_value = PValue.float q) ∧
      (∃ q, pyFloatOfMatch "0.5".toList = some q ∧
        ∃ p, p ∈ ps ∧ p.name = "strength".toList ∧
          p.default_value = PValue.float q) ∧
      PValue.int 768 ≠ PValue.int 512 ∧ PValue.int 384 ≠ PValue.int 512 ∧
      PValue.int 30 ≠ PValue.int 50 ∧
      detectParameters codeC6bad = Option.none := by
  rcases hps : detectParameters codeC6 with _ | ps
  · exact absurd hps (by decide)
  · exact ⟨ps, rfl,
      (C6_assignment_seeds_default codeC6).1 768 (by decide) ps hps,
      (C6_assignment_seeds_default codeC6).2.1 384 (by decide) ps hps,
      (C6_assignment_seeds_default codeC6).2.2.1 30 (by decide) ps hps,
      (C6_assignment_seeds_default codeC6).2.2.2.1 "9.5".toList (by decide) ps hps,
      (C6_assignment_seeds_default codeC6).2.2.2.2.1 "0.5".toList (by decide) ps hps,
      by decide, by decide, by decide,
      (C6_assignment_seeds_default codeC6bad).2.2.2.2.2.1 ".".toList
        (by decide) (by decide)⟩
end CG

namespace CG

/-- C9.  `_sanitize_name` is idempotent: sanitizing an already-sanitized name
returns it unchanged, so running the widget-constructor detector twice on the
same matched label always yields the same sanitized name. -/
theorem C9_sanitizer_idempotent (lab : List Char) :
    sanitizeName (sanitizeName lab) = sanitizeName lab ∧
    (grTextParam lab).name = sanitizeName lab ∧
    (grTextParam (grTextParam lab).name).name = (grTextParam lab).name :=
  ⟨sanitizeName_idem lab, rfl, sanitizeName_idem lab⟩

/-- Host-side state of one form control: absent from the DOM, or present with
a string `value` and a `checked` flag. -/
inductive ControlState where
  | absent
  | present (value : List Char) (checked : Bool)
deriving DecidableEq, Repr

/-- Value produced by one generated collection line.  `jsNum s` stands for
`parseFloat` applied to the text `s` (floating-point arithmetic itself is not
modelled; the claims only concern which text is parsed). -/
inductive JsValue where
  | jsBool (b : Bool)
  | jsNum (parsedFrom : List Char)
  | jsStr (s : List Char)
  | jsImage (b64 : Option (List Char))
deriving DecidableEq, Repr

/-- The four collection rules emitted by `_generate_param_collection_js`. -/
inductive CollectRule where
  | checkedRule  -- params[n] = document.getElementById(n)?.checked || false;
  | imageRule    -- params[n] = await getImageBase64(n_input);
  | numberRule   -- params[n] = parseFloat(document.getElementById(n)?.value || 0);
  | stringRule   -- params[n] = document.getElementById(n)?.value || '';
deriving DecidableEq, Repr

/-- The branch structure of `_generate_param_collection_js`: the rule is
chosen solely from `param_type` (the parameter name only selects the DOM
element). -/
def paramCollectionRule : ParameterType → CollectRule
  | ParameterType.CHECKBOX => CollectRule.checkedRule
  | ParameterType.IMAGE => CollectRule.imageRule
  | ParameterType.SLIDER => CollectRule.numberRule
  | ParameterType.NUMBER => CollectRule.numberRule
  | ParameterType.TEXTAREA => CollectRule.stringRule
  | _ => CollectRule.stringRule

/-- JavaScript semantics of each collection line against a control state and
the awaited base64 result:
`?.checked || false` is the checked flag, `false` when absent;
`parseFloat(el?.value || 0)` parses the value text, `"0"` when absent/empty;
`await getImageBase64(...)` is the base64 result;
`el?.value || ''` is the raw value text, `''` when absent. -/
def evalCollect : CollectRule → ControlState → Option (List Char) → JsValue
  | CollectRule.checkedRule, ControlState.absent, _ => JsValue.jsBool false
  | CollectRule.checkedRule, ControlState.present _ c, _ => JsValue.jsBool c
  | CollectRule.imageRule, _, b64 => JsValue.jsImage b64
  | CollectRule.numberRule, ControlState.absent, _ => JsValue.jsNum "0".toList
  | CollectRule.numberRule, ControlState.present v _, _ =>
    JsValue.jsNum (if v = [] then "0".toList else v)
  | CollectRule.stringRule, ControlState.absent, _ => JsValue.jsStr []
  | CollectRule.stringRule, ControlState.present v _, _ => JsValue.jsStr v

/-- Modelled from the spec's words for comparison (refinement check only):
"all others read a trimmed string value, defaulting to empty" — a trimmed
read of the control value. -/
def specTrimmedStringRead (st : ControlState) : JsValue :=
  JsValue.jsStr (pyStripWs (match st with
    | ControlState.absent => []
    | ControlState.present v _ => v))

/-- C5 counterexample: for a `text` parameter whose control holds `" x "`,
the generated collection line yields the raw string `" x "`, not the trimmed
string `"x"` claimed by the spec. -/
theorem C5_counterexample :
    evalCollect (paramCollectionRule ParameterType.TEXT)
        (ControlState.present " x ".toList false) Option.none ≠
      specTrimmedStringRead (ControlState.present " x ".toList false) ∧
    evalCollect (paramCollectionRule ParameterType.TEXT)
        (ControlState.present " x ".toList false) Option.none =
      JsValue.jsStr " x ".toList :=
  ⟨by decide, by decide⟩

/-- C5 amended: the collection mapping is determined solely by the parameter
kind — boolean kinds read the checked state, `false` when the control is
absent; number and range kinds parse a float from the value text, `"0"` when
absent or empty; image kinds resolve to the awaited base64 step; all other
kinds read the RAW (untrimmed) string value, the empty string when absent. -/
theorem C5_amended (t : ParameterType) (st : ControlState) (b64 : Option (List Char)) :
    (t = ParameterType.CHECKBOX →
      evalCollect (paramCollectionRule t) st b64 =
        JsValue.jsBool (match st with
          | ControlState.absent => false
          | ControlState.present _ c => c) ∧
      (st = ControlState.absent →
        evalCollect (paramCollectionRule t) st b64 = JsValue.jsBool false)) ∧
    (t = ParameterType.SLIDER ∨ t = ParameterType.NUMBER →
      evalCollect (paramCollectionRule t) st b64 =
        JsValue.jsNum (match st with
          | ControlState.absent => "0".toList
          | ControlState.present v _ => if v = [] then "0".toList else v)) ∧
    (t = ParameterType.IMAGE →
      evalCollect (paramCollectionRule t) st b64 = JsValue.jsImage b64) ∧
    (t ≠ ParameterType.CHECKBOX → t ≠ ParameterType.SLIDER →
      t ≠ ParameterType.NUMBER → t ≠ ParameterType.IMAGE →
      evalCollect (paramCollectionRule t) st b64 =
        JsValue.jsStr (match st with
          | ControlState.absent => []
          | ControlState.present v _ => v)) := by
  cases t <;> cases st <;>
    simp [paramCollectionRule, evalCollect]

/-- C5 witness: the amended per-kind rules applied at concrete inputs. -/
theorem C5_amended_witness :
    evalCollect (paramCollectionRule ParameterType.CHECKBOX)
      ControlState.absent Option.none = JsValue.jsBool false ∧
    evalCollect (paramCollectionRule ParameterType.NUMBER)
      (ControlState.present [] false) Option.none = JsValue.jsNum "0".toList ∧
    evalCollect (paramCollectionRule ParameterType.IMAGE)
      ControlState.absent (some "abc".toList) = JsValue.jsImage (some "abc".toList) ∧
    evalCollect (paramCollectionRule ParameterType.TEXT)
      ControlState.absent Option.none = JsValue.jsStr [] :=
  ⟨((C5_amended ParameterType.CHECKBOX ControlState.absent Option.none).1 rfl).2 rfl,
   (C5_amended ParameterType.NUMBER (ControlState.present [] false) Option.none).2.1
     (Or.inr rfl),
   (C5_amended ParameterType.IMAGE ControlState.absent (some "abc".toList)).2.2.1 rfl,
   (C5_amended ParameterType.TEXT ControlState.absent Option.none).2.2.2
     (by decide) (by decide) (by decide) (by decide)⟩

/-- Result dictionary of `ColabManager.generate`
(`{'success': ..., 'message': ..., 'image': ...}`). -/
structure GenResult where
  success : Bool
  message : List Char := []
  image : Option (List Char) := Option.none
deriving DecidableEq, Repr

/-- Outcome of the `requests.post` call inside `ColabManager.generate`:
timeout, connection failure, another raised exception, or a response with a
status code and (parsed) JSON body. -/
inductive HttpOutcome where
  | timeout
  | connError (msg : List Char)
  | exc (msg : List Char)
  | resp (status : Nat) (body : GenResult)
deriving DecidableEq, Repr

/-- Failure result of `generate` on a non-200 status: `Server-Fehler: {status_code}`. -/
def genServerError (status : Nat) : GenResult :=
  { success := false, message := "Server-Fehler: ".toList ++ Nat.toDigits 10 status }

/-- Embeds `ColabManager.generate`.  The parameter map is the request payload; the
result is determined by the configured URL and the transport outcome.
`requests.exceptions.ConnectionError` has no dedicated handler here and is
caught by the generic `except Exception` branch. -/
def cmGenerate (apiUrl : List Char) (params : List (List Char × List Char))
    (outcome : HttpOutcome) : GenResult :=
  if apiUrl = [] then
    { success := false, message := "Keine API-URL konfiguriert".toList }
  else
    match outcome with
    | HttpOutcome.resp status body =>
      if status = 200 then body
      else genServerError status
    | HttpOutcome.timeout =>
      { success := false,
        message := "Zeitüberschreitung bei der Generierung".toList }
    | HttpOutcome.connError msg =>
      { success := false, message := "Fehler: ".toList ++ msg }
    | HttpOutcome.exc msg =>
      { success := false, message := "Fehler: ".toList ++ msg }

/-- Parsed JSON body of a `/health` response. -/
structure HealthBody where
  message : Option (List Char) := Option.none
  status : Option (List Char) := Option.none
deriving DecidableEq, Repr

/-- Result dictionary of `ColabManager.check_connection`. -/
structure CheckResult where
  success : Bool
  message : List Char
  status : Option (List Char) := Option.none
deriving DecidableEq, Repr

/-- Outcome of the `requests.get` call inside `check_connection`. -/
inductive CheckOutcome where
  | timeout
  | connError
  | exc (msg : List Char)
  | resp (status : Nat) (body : HealthBody)
deriving DecidableEq, Repr

/-- Failure result of `check_connection` on a non-200 status: `Server-Fehler: Status {code}`. -/
def checkServerError (status : Nat) : CheckResult :=
  { success := false,
    message := "Server-Fehler: Status ".toList ++ Nat.toDigits 10 status }

/-- Success result of `check_connection` (status 200):
`data.get('message', 'Verbindung erfolgreich!')` and
`data.get('status', 'online')`. -/
def checkOk (body : HealthBody) : CheckResult :=
  { success := true,
    message := body.message.getD "Verbindung erfolgreich!".toList,
    status := some (body.status.getD "online".toList) }

/-- Embeds `ColabManager.check_connection`. -/
def cmCheckConnection (apiUrl : List Char) (outcome : CheckOutcome) : CheckResult :=
  if apiUrl = [] then
    { success := false, message := "Keine API-URL konfiguriert".toList }
  else
    match outcome with
    | CheckOutcome.resp status body =>
      if status = 200 then checkOk body
      else checkServerError status
    | CheckOutcome.timeout =>
      { success := false,
        message := "Zeitüberschreitung - Server antwortet nicht".toList }
    | CheckOutcome.connError =>
      { success := false, message := "Verbindungsfehler - URL prüfen".toList }
    | CheckOutcome.exc msg =>
      { success := false, message := "Fehler: ".toList ++ msg }

/-- The failure modes named by the claim: timeout, connection failure, or a
non-2xx response status. -/
def isTransportFailure : HttpOutcome → Prop
  | HttpOutcome.timeout => True
  | HttpOutcome.connError _ => True
  | HttpOutcome.exc _ => False
  | HttpOutcome.resp s _ => s < 200 ∨ 300 ≤ s

/-- The same failure modes for the health check. -/
def isCheckFailure : CheckOutcome → Prop
  | CheckOutcome.timeout => True
  | CheckOutcome.connError => True
  | CheckOutcome.exc _ => False
  | CheckOutcome.resp s _ => s < 200 ∨ 300 ≤ s

/-- C8.  For every parameter map and configured URL, a `generate` call that
times out, fails to connect, or receives a non-2xx status returns a
structured result with `success = false` and a non-empty message, and
likewise for `check_connection`; both adapter functions are total, so no
exception crosses the adapter boundary. -/
theorem C8_transport_failures_structured (apiUrl : List Char)
    (params : List (List Char × List Char)) :
    (∀ o, isTransportFailure o →
      (cmGenerate apiUrl params o).success = false ∧
      (cmGenerate apiUrl params o).message ≠ []) ∧
    (∀ o, isCheckFailure o →
      (cmCheckConnection apiUrl o).success = false ∧
      (cmCheckConnection apiUrl o).message ≠ []) := by
  constructor
  · intro o ho
    cases o with
    | timeout =>
      unfold cmGenerate
      split
      · exact ⟨rfl, by decide⟩
      · exact ⟨rfl, by decide⟩
    | connError msg =>
      unfold cmGenerate
      split
      · exact ⟨rfl, by decide⟩
      · refine ⟨rfl, ?_⟩
        intro hc
        have h2 := congrArg List.length hc
        rw [List.length_append] at h2
        simp at h2
    | exc msg => exact absurd ho (by simp [isTransportFailure])
    | resp s body =>
      have hs : ¬ s = 200 := by
        rcases ho with h | h <;> omega
      unfold cmGenerate
      split
      · exact ⟨rfl, by decide⟩
      · show (if s = 200 then body else genServerError s).success = false ∧
          (if s = 200 then body else genServerError s).message ≠ []
        rw [if_neg hs]
        refine ⟨rfl, ?_⟩
        intro hc
        have h2 := congrArg List.length hc
        unfold genServerError at h2
        rw [List.length_append] at h2
        simp at h2
  · intro o ho
    cases o with
    | timeout =>
      unfold cmCheckConnection
      split
      · exact ⟨rfl, by decide⟩
      · exact ⟨rfl, by decide⟩
    | connError =>
      unfold cmCheckConnection
      split
      · exact ⟨rfl, by decide⟩
      · exact ⟨rfl, by decide⟩
    | exc msg => exact absurd ho (by simp [isCheckFailure])
    | resp s body =>
      have hs : ¬ s = 200 := by
        rcases ho with h | h <;> omega
      unfold cmCheckConnection
      split
      · exact ⟨rfl, by decide⟩
      · show (if s = 200 then checkOk body else checkServerError s).success = false ∧
          (if s = 200 then checkOk body else checkServerError s).message ≠ []
        rw [if_neg hs]
        refine ⟨rfl, ?_⟩
        intro hc
        have h2 := congrArg List.length hc
        unfold checkServerError at h2
        rw [List.length_append] at h2
        simp at h2

/-- C8 witness: the theorem applied at a concrete URL, payload and outcomes
(timeout and a 500 response). -/
theorem C8_witness :
    (cmGenerate "http://x".toList [] HttpOutcome.timeout).success = false ∧
    (cmGenerate "http://x".toList [] HttpOutcome.timeout).message ≠ [] ∧
    (cmGenerate "http://x".toList []
      (HttpOutcome.resp 500 { success := true })).success = false ∧
    (cmGenerate "http://x".toList []
      (HttpOutcome.resp 500 { success := true })).message ≠ [] ∧
    (cmCheckConnection "http://x".toList CheckOutcome.timeout).success = false ∧
    (cmCheckConnection "http://x".toList CheckOutcome.timeout).message ≠ [] := by
  have h1 := (C8_transport_failures_structured "http://x".toList []).1
    HttpOutcome.timeout trivial
  have h2 := (C8_transport_failures_structured "http://x".toList []).1
    (HttpOutcome.resp 500 { success := true }) (Or.inr (by omega))
  have h3 := (C8_transport_failures_structured "http://x".toList []).2
    CheckOutcome.timeout trivial
  exact ⟨h1.1, h1.2, h2.1, h2.2, h3.1, h3.2⟩

end CG
